import Mathlib

/-!
Verification of the gammapy MapDataset / MapDatasetOnOff prediction and
stacking engine and of the PSFMap kernel/sampling engine.

Shallow embedding conventions:
* map data is modelled over exact rationals (`ℚ`); a map with one
  reconstructed-energy (or true-energy) axis and flattened spatial pixels is a
  `Cube` (outer list = energy planes, inner list = spatial pixels);
* booleans masks are `BCube`/`BImage`;
* numpy's `nan_to_num` replacement of non-finite values is the identity over
  exact rationals; it is kept in signatures (`nanToNumQ`) to mirror call sites;
* fallible code (Python exceptions) is modelled with `Except String`;
* background-model parameter values are modelled by `FVal`, which has an
  explicit IEEE-style `nan` element so that numpy elementwise `==` semantics
  (NaN is never equal, even to itself) are represented faithfully.
-/

/-- Spatial image: flattened list of pixel values (one energy plane). -/
abbrev Image := List ℚ

/-- Data cube: one `Image` per energy bin. -/
abbrev Cube := List Image

/-- Boolean image (one mask plane). -/
abbrev BImage := List Bool

/-- Boolean cube (a full mask). -/
abbrev BCube := List BImage

/-- Over exact rationals every value is finite, so numpy's replacement of
non-finite values by zero (`nan_to_num`) is the identity.  The flag is kept so
call sites mirror `Map.stack(..., nan_to_num=...)`. -/
def nanToNumQ (_enabled : Bool) (x : ℚ) : ℚ := x

/-- `Map.stack` on one energy plane, modelled from the spec (the `Map`
container is an external collaborator): additive, the other map's contribution
optionally weighted by a boolean mask, non-finite values of the other map
replaced by 0 unless disabled. -/
def imgStack (s o : Image) (w : Option BImage) (n2n : Bool) : Image :=
  match w with
  | none => List.zipWith (fun a b => a + nanToNumQ n2n b) s o
  | some m =>
      List.zipWith (fun a (bw : ℚ × Bool) =>
        a + (if bw.2 then nanToNumQ n2n bw.1 else 0)) s (o.zip m)

/-- `Map.stack` on a cube, weights given (if at all) as a full cube mask. -/
def cubeStack (s o : Cube) (w : Option BCube) (n2n : Bool) : Cube :=
  match w with
  | none => List.zipWith (fun sp op => imgStack sp op none n2n) s o
  | some mw =>
      List.zipWith (fun sp (opw : Image × BImage) =>
        imgStack sp opw.1 (some opw.2) n2n) s (o.zip mw)

/-- `Map.stack` on a cube with a single reduced image mask as weights
(the mask image is broadcast over the energy axis, as when exposure is stacked
with `other.mask_safe_image`). -/
def cubeStackImgW (s o : Cube) (w : Option BImage) (n2n : Bool) : Cube :=
  List.zipWith (fun sp op => imgStack sp op w n2n) s o

/-- `Map.stack` of one boolean mask plane onto another: numpy `+=` on boolean
arrays, i.e. logical or (modelled from the spec: "mask_safe: logical OR"). -/
def imgOrStack (s o : BImage) : BImage := List.zipWith (fun a b => a || b) s o

/-- `Map.stack` of a boolean mask cube onto another: elementwise logical or. -/
def cubeOrStack (s o : BCube) : BCube := List.zipWith imgOrStack s o

/-- `mask.reduce_over_axes(func=np.logical_or)`: reduce a mask cube over the
energy axis to one image plane by pixelwise logical or. -/
def reduceOrImage (m : BCube) : BImage :=
  match m with
  | [] => []
  | [p] => p
  | p :: ps => imgOrStack p (reduceOrImage ps)

/-- Shape check: cube `c` has `nE` energy planes of `nPix` pixels each. -/
def cubeShape (c : Cube) (nE nPix : Nat) : Bool :=
  c.length == nE && c.all (fun p => p.length == nPix)

/-- Shape check for boolean cubes. -/
def bcubeShape (c : BCube) (nE nPix : Nat) : Bool :=
  c.length == nE && c.all (fun p => p.length == nPix)

/-- All-zero cube of the given shape (`Map.from_geom` data). -/
def zeroCube (nE nPix : Nat) : Cube := List.replicate nE (List.replicate nPix 0)

/-- All-false mask cube of the given shape (`Map.from_geom(..., dtype=bool)`). -/
def falseCube (nE nPix : Nat) : BCube :=
  List.replicate nE (List.replicate nPix false)

/-- Elementwise `npred_total.data[npred_total.data < 0.0] = 0` on a plane. -/
def imgClip0 (p : Image) : Image := p.map (fun x => if x < 0 then 0 else x)

/-- Elementwise negative-to-zero clipping on a cube. -/
def cubeClip0 (c : Cube) : Cube := c.map imgClip0

/-- Elementwise sum of two cubes (`Map.__iadd__`). -/
def cubeAdd (s o : Cube) : Cube := List.zipWith (List.zipWith (· + ·)) s o

/-- Elementwise product of two cubes (`Map.__mul__`). -/
def cubeMul (s o : Cube) : Cube := List.zipWith (List.zipWith (· * ·)) s o

/-- Sum of all values of a cube restricted to a mask. -/
def maskedTotal (c : Cube) (m : BCube) : ℚ :=
  (List.zipWith (fun cp mp =>
    (List.zipWith (fun (x : ℚ) (b : Bool) => if b then x else 0) cp mp).sum)
    c m).sum

/-- `np.any` on a mask image. -/
def imgAny (m : BImage) : Bool := m.any id

example : cubeStack [[1, 2]] [[10, 20]] (some [[true, false]]) true = [[11, 2]] := by
  norm_num [cubeStack, imgStack, nanToNumQ]

example : maskedTotal [[1, 2], [3, 4]] [[true, false], [true, true]] = 8 := by
  norm_num [maskedTotal]

/-! ## Floating-point parameter values

`MapDataset._background_parameters_changed` compares the raw numpy array of
background-model parameter values against a cached copy with elementwise `==`.
IEEE semantics make `NaN == x` false for every `x`, including `x = NaN`; the
type `FVal` records exactly this much of float behaviour. -/

/-- A parameter value: either IEEE NaN or a finite value. -/
inductive FVal where
  | nan : FVal
  | val : ℚ → FVal
deriving DecidableEq, Repr

/-- numpy elementwise `==` on two parameter values: NaN compares false against
everything, including another NaN. -/
def FVal.ieeeEq : FVal → FVal → Bool
  | FVal.val a, FVal.val b => a == b
  | _, _ => false

/-- Whether a value is NaN. -/
def FVal.isNan : FVal → Bool
  | FVal.nan => true
  | FVal.val _ => false

/-- `~np.all(self._background_parameters_cached == values)`
(`MapDataset._background_parameters_changed`, the comparison itself).
When no copy has been cached yet, numpy compares the array against `None`,
which yields `False`, so the parameters count as changed. -/
def backgroundParametersChanged (cached : Option (List FVal)) (values : List FVal) :
    Bool :=
  match cached with
  | none => true
  | some c =>
      !(c.length == values.length && (c.zip values).all (fun p => p.1.ieeeEq p.2))

/-- Spec-side reading of "the parameter-value vector differs from the cached
copy, compared element-wise with NaN treated as a real sentinel value and not
auto-equal": the vectors are *unchanged* exactly when they have the same shape
and every slot holds the same non-NaN value. -/
def SpecParametersUnchanged (c v : List FVal) : Prop :=
  c.length = v.length ∧
    ∀ i : Nat, ∀ hc : i < c.length, ∀ hv : i < v.length,
      ∃ q : ℚ, c.get ⟨i, hc⟩ = FVal.val q ∧ v.get ⟨i, hv⟩ = FVal.val q

/-! ## The MapDataset engine (`gammapy/datasets/map.py`)

Maps are carried as optional cubes. The model evaluator (`MapEvaluator`) and
the `FoVBackgroundModel` are external collaborators of this core (spec §2/§6):
an evaluator is modelled by whether it contributes (its value after any
`update()` call) and by the predicted-counts cube `compute_npred()` yields,
already pasted onto the dataset geometry; the background model is modelled by
its parameter vector together with its `evaluate_geom` function. -/

/-- External collaborator `MapEvaluator`: `contributes` is its value after
`needs_update`-triggered `update()`; `npredData` is the contribution that
`compute_npred()` pastes onto the dataset geometry. -/
structure MapEvaluator where
  contributes : Bool
  npredData : Cube

/-- External collaborator `FoVBackgroundModel`: current parameter values and
the `evaluate_geom` scaling function on the background geometry. -/
structure FoVBackgroundModel where
  params : List FVal
  evaluateGeom : List FVal → Cube

/-- Objects acceptable for the `psf` argument of `MapDataset.__init__`:
a `PSFMap`, an `HDULocation`, or something else (which is rejected). -/
inductive PsfInput where
  | psfMap : PsfInput
  | hduLocation : PsfInput
  | otherObject : PsfInput
deriving DecidableEq

/-- Objects acceptable for the `edisp` argument of `MapDataset.__init__`:
an `EDispMap`, an `EDispKernelMap`, an `HDULocation`, or something else. -/
inductive EDispInput where
  | edispMap : EDispInput
  | edispKernelMap : EDispInput
  | hduLocation : EDispInput
  | otherObject : EDispInput
deriving DecidableEq

/-- The Cash-statistic `MapDataset`. IRF maps (psf/edisp) are kept only as
type tags: the claims under verification never exercise their stacking, whose
geometry interpolation lives in external collaborators. `livetime` stands for
`exposure.meta["livetime"]`. -/
structure MapDataset where
  counts : Option Cube
  exposure : Option Cube
  livetime : Option ℚ
  background : Option Cube
  psf : Option PsfInput
  edisp : Option EDispInput
  mask_safe : Option BCube
  mask_fit : Option BCube
  evaluators : List (String × MapEvaluator)
  backgroundModel : Option FoVBackgroundModel
  backgroundParametersCached : Option (List FVal)
  backgroundCached : Option Cube
  stat_type : String

/-- `MapDataset.__init__` (lines 512-558): validates the types of `psf` and
`edisp`, initialises the background caches to `None` and stores the maps.
The `models` setter is an external collaborator (`DatasetModels.select`); the
evaluators it builds for non-background models and the attached
`FoVBackgroundModel` enter the model directly. No geometry check happens
here. -/
def MapDataset.init (counts exposure : Option Cube) (background : Option Cube)
    (psf : Option PsfInput) (edisp : Option EDispInput)
    (mask_safe mask_fit : Option BCube)
    (evaluators : List (String × MapEvaluator))
    (backgroundModel : Option FoVBackgroundModel)
    (livetime : Option ℚ) (stat_type : String := "cash") :
    Except String MapDataset := do
  if psf.isSome && !(psf = some PsfInput.psfMap || psf = some PsfInput.hduLocation) then
    throw "psf must be a PSFMap or HDULocation object"
  if edisp.isSome && !(edisp = some EDispInput.edispMap
      || edisp = some EDispInput.edispKernelMap
      || edisp = some EDispInput.hduLocation) then
    throw "edisp must be a EDispMap, EDispKernelMap or HDULocation object"
  pure
    { counts := counts, exposure := exposure, livetime := livetime
      background := background, psf := psf, edisp := edisp
      mask_safe := mask_safe, mask_fit := mask_fit
      evaluators := evaluators, backgroundModel := backgroundModel
      backgroundParametersCached := none, backgroundCached := none
      stat_type := stat_type }

/-- `MapDataset._geom` (lines 700-715): reference-geometry resolution in the
priority order counts → background → mask_safe → mask_fit, raising a
`ValueError` if none is defined. The geometry of a cube is its shape. -/
def MapDataset.geom (d : MapDataset) : Except String Cube :=
  match d.counts with
  | some c => pure c
  | none =>
    match d.background with
    | some b => pure b
    | none =>
      match d.mask_safe with
      | some m => pure (m.map (fun p => p.map (fun _ => (0 : ℚ))))
      | none =>
        match d.mask_fit with
        | some m => pure (m.map (fun p => p.map (fun _ => (0 : ℚ))))
        | none =>
            throw "Either counts, background, mask_fit or mask_safe must be defined."

/-- `MapDataset.mask_safe_image` (lines 1025-1030): the safe mask reduced over
the energy axis with logical or. -/
def MapDataset.maskSafeImage (d : MapDataset) : Option BImage :=
  d.mask_safe.map reduceOrImage

/-- `MapDataset.npred_background` for the Cash case (lines 789-814), returning
the map together with the dataset carrying the updated caches. When a
`FoVBackgroundModel` is attached and a background map is present, the scaled
background is re-evaluated only when `_background_parameters_changed` fires,
and the result is cached; otherwise the plain `background` map is returned. -/
def MapDataset.npredBackground (d : MapDataset) : Option Cube × MapDataset :=
  match d.background, d.backgroundModel with
  | some bg, some m =>
      if backgroundParametersChanged d.backgroundParametersCached m.params then
        let values := m.evaluateGeom m.params
        let cache := cubeMul bg values
        (some cache,
          { d with backgroundParametersCached := some m.params,
                   backgroundCached := some cache })
      else
        (d.backgroundCached, d)
  | bg, _ => (bg, d)

/-- `MapDataset._background_parameters_changed` also updates the cached copy;
this is the state effect bundled with the check (lines 816-823), used by
`npredBackground` above through the combined definition. -/
def MapDataset.npredBackgroundReevaluates (d : MapDataset) : Bool :=
  match d.background, d.backgroundModel with
  | some _, some m => backgroundParametersChanged d.backgroundParametersCached m.params
  | _, _ => false

/-- Result of `npred_signal`: the data cube and whether the returned map
carries the extra "models" label axis (`stack=False` with at least one
contributing evaluator). With the label axis present the per-model maps are
also recorded. -/
structure NpredSignalResult where
  data : Cube
  hasModelsAxis : Bool
  perModel : List (String × Cube)

/-- `MapDataset.npred_signal` (lines 825-881) with the default
`model_names=None` (the claims only exercise the default): start from a
zero-filled map on the reference geometry; every contributing evaluator's
`compute_npred()` is stacked either onto the running total (`stack=True`) or
onto its own zero-filled copy collected into `npred_list` (`stack=False`).
If `npred_list` is non-empty the result is the per-model stack along a new
"models" label axis, otherwise the running total. -/
def MapDataset.npredSignal (d : MapDataset) (geomRef : Cube) (stack : Bool) :
    NpredSignalResult :=
  let zero := geomRef.map (fun p => p.map (fun _ => (0 : ℚ)))
  let step := fun (acc : Cube × List (String × Cube)) (ev : String × MapEvaluator) =>
    if ev.2.contributes then
      if stack then
        (cubeStack acc.1 ev.2.npredData none true, acc.2)
      else
        (acc.1, acc.2 ++ [(ev.1, cubeStack zero ev.2.npredData none true)])
    else acc
  let res := d.evaluators.foldl step (zero, [])
  if res.2 ≠ [] then
    { data := (res.2.map Prod.snd).flatten, hasModelsAxis := true, perModel := res.2 }
  else
    { data := res.1, hasModelsAxis := false, perModel := [] }

/-- `MapDataset.npred` (lines 774-787): total predicted counts
`npred_signal() (+ npred_background() if a background is present)`, with
negative bins clipped to zero; returns the dataset with updated background
caches alongside. -/
def MapDataset.npred (d : MapDataset) : Except String (Cube × MapDataset) := do
  let geomRef ← d.geom
  let sig := (d.npredSignal geomRef true).data
  match d.background with
  | some _ =>
      let (bgOpt, dNew) := d.npredBackground
      let total := cubeAdd sig (bgOpt.getD (geomRef.map (fun p => p.map (fun _ => 0))))
      pure (cubeClip0 total, dNew)
  | none => pure (cubeClip0 sig, d)

/-- `MapDataset.from_geoms` (lines 883-946) restricted to the modelled roles:
zero-filled counts and background, an all-false boolean safe mask, and an
optional zero-filled exposure; no models are attached. -/
def MapDataset.fromGeoms (nE nPix : Nat) (withExposure : Bool := false) : MapDataset :=
  { counts := some (zeroCube nE nPix)
    exposure := if withExposure then some (zeroCube nE nPix) else none
    livetime := none
    background := some (zeroCube nE nPix)
    psf := none, edisp := none
    mask_safe := some (falseCube nE nPix)
    mask_fit := none
    evaluators := [], backgroundModel := none
    backgroundParametersCached := none, backgroundCached := none
    stat_type := "cash" }

/-- `MapDataset.stack` (lines 1150-1203) for the modelled roles. Counts are
stacked with the other dataset's safe mask as weights; exposure with the other
dataset's reduced safe-mask image; the livetime metadata is summed only when
the other reduced image has a true bin; for the Cash statistic the background
is accumulated through `npred_background()` of both sides; the safe mask is
or-stacked when both are present; the fit mask is or-stacked or copied from
the other dataset. IRF (psf/edisp), GTI and meta-table stacking concern
external collaborators and are outside the modelled state. -/
def MapDataset.stackWith (self other : MapDataset) (nanToNum : Bool) : MapDataset :=
  -- The source mutates `self` block by block; each block writes fields no
  -- other block reads, so the in-place sequence is rendered as one
  -- simultaneous record update.
  let newCounts :=
    match self.counts, other.counts with
    | some s, some o => some (cubeStack s o other.mask_safe nanToNum)
    | _, _ => self.counts
  let newExposureLivetime :=
    match self.exposure, other.exposure with
    | some s, some o =>
        let stacked := cubeStackImgW s o other.maskSafeImage nanToNum
        let lt :=
          if other.livetime.isSome && (other.maskSafeImage.getD []).any id then
            match self.livetime, other.livetime with
            | some a, some b => some (a + b)
            | none, some b => some b
            | a, _ => a
          else self.livetime
        (some stacked, lt)
    | _, _ => (self.exposure, self.livetime)
  let newBackgroundState :=
    if self.stat_type = "cash" then
      match self.background, other.background with
      | some _, some _ =>
          let (bgSelf, selfN) := self.npredBackground
          let (bgOther, _) := other.npredBackground
          let stacked := cubeStack (bgSelf.getD []) (bgOther.getD [])
            other.mask_safe nanToNum
          (some stacked, selfN.backgroundParametersCached, selfN.backgroundCached)
      | _, _ =>
          (self.background, self.backgroundParametersCached, self.backgroundCached)
    else (self.background, self.backgroundParametersCached, self.backgroundCached)
  let newMaskSafe :=
    match self.mask_safe, other.mask_safe with
    | some s, some o => some (cubeOrStack s o)
    | _, _ => self.mask_safe
  let newMaskFit :=
    match self.mask_fit, other.mask_fit with
    | some s, some o => some (cubeOrStack s o)
    | none, some o => some o
    | mf, _ => mf
  { self with
    counts := newCounts
    exposure := newExposureLivetime.1
    livetime := newExposureLivetime.2
    background := newBackgroundState.1
    backgroundParametersCached := newBackgroundState.2.1
    backgroundCached := newBackgroundState.2.2
    mask_safe := newMaskSafe
    mask_fit := newMaskFit }

/-- Total counts inside the safe mask of a dataset (zero when either map is
absent); the quantity compared by the stacking-order claim. -/
def MapDataset.maskedTotalCounts (d : MapDataset) : ℚ :=
  match d.counts, d.mask_safe with
  | some c, some m => maskedTotal c m
  | _, _ => 0

/-! ## The MapDatasetOnOff engine -/

/-- Largest double, `np.finfo(np.float64).max`: what `np.nan_to_num` turns
`+inf` into. -/
def maxFloat64 : ℚ := 2 ^ 1024 - 2 ^ 971

/-- `np.nan_to_num(a / b)` for a division evaluated under
`np.errstate(invalid="ignore", divide="ignore")`: `0/0` (NaN) becomes 0 and
`±a/0` (±inf) becomes `±np.finfo(float64).max`; elsewhere the exact
quotient. -/
def nanToNumDiv (a b : ℚ) : ℚ :=
  if b = 0 then
    if a = 0 then 0 else if a > 0 then maxFloat64 else -maxFloat64
  else a / b

/-- Exact division as used where the quotient is *not* passed through
`nan_to_num`: over ℚ a zero denominator yields 0, whereas numpy would keep
±inf/NaN there; theorems about such expressions carry hypotheses excluding
the zero-denominator bins. -/
def qdiv (a b : ℚ) : ℚ := a / b

/-- Pointwise ternary map on one plane. -/
def imgZip3 (f : ℚ → ℚ → ℚ → ℚ) (a b c : Image) : Image :=
  List.zipWith (fun x (yz : ℚ × ℚ) => f x yz.1 yz.2) a (b.zip c)

/-- Pointwise ternary map on cubes. -/
def cubeZip3 (f : ℚ → ℚ → ℚ → ℚ) (a b c : Cube) : Cube :=
  List.zipWith (fun p (qr : Image × Image) => imgZip3 f p qr.1 qr.2) a (b.zip c)

/-- Sum of all entries of a cube (`Map.data.sum()`). -/
def cubeSum (c : Cube) : ℚ := (c.map List.sum).sum

/-- `np.any` on a mask cube. -/
def cubeAny (m : BCube) : Bool := m.any imgAny

/-- The WStat `MapDatasetOnOff`; the roles relevant to the verified claims. -/
structure MapDatasetOnOff where
  counts : Option Cube
  counts_off : Option Cube
  acceptance : Option Cube
  acceptance_off : Option Cube
  exposure : Option Cube
  livetime : Option ℚ
  mask_safe : Option BCube
  mask_fit : Option BCube
  stat_type : String := "wstat"

/-- `MapDatasetOnOff.alpha` (lines 2666-2681):
`nan_to_num(acceptance / acceptance_off)` computed under an errstate that
ignores the 0-division warnings. Callers crash earlier when either map is
absent, so the data cubes are taken directly. -/
def MapDatasetOnOff.alpha (acceptance acceptance_off : Cube) : Cube :=
  List.zipWith (List.zipWith nanToNumDiv) acceptance acceptance_off

/-- `MapDatasetOnOff._is_stackable` (lines 2898-2910): a dataset lacking any
of acceptance_off / acceptance / counts_off can only be stacked if its safe
mask is everywhere false. `mask_safe` is assumed present (its absence crashes
Python inside the property before producing a value). -/
def MapDatasetOnOff.isStackable (d : MapDatasetOnOff) : Bool :=
  let incomplete := d.acceptance_off.isNone || d.acceptance.isNone || d.counts_off.isNone
  let unmasked := cubeAny (d.mask_safe.getD [])
  !(incomplete && unmasked)

/-- Shared helper for `Except`: a `None` role whose use would crash Python. -/
def req {α : Type} (o : Option α) (msg : String) : Except String α :=
  match o with
  | some a => Except.ok a
  | none => Except.error msg

/-- The `super().stack(other)` call at the end of `MapDatasetOnOff.stack`:
`MapDataset.stack` executed on the on/off fields. With `stat_type = "wstat"`
the Cash-only background block is skipped; the counts, exposure/livetime and
mask rules are those of `MapDataset.stack`. -/
def MapDatasetOnOff.stackSuper (self other : MapDatasetOnOff) (nanToNum : Bool) :
    MapDatasetOnOff :=
  -- As for `MapDataset.stackWith`, the source's in-place block sequence is
  -- rendered as one simultaneous record update over disjoint fields.
  let otherImage := other.mask_safe.map reduceOrImage
  let newCounts :=
    match self.counts, other.counts with
    | some s, some o => some (cubeStack s o other.mask_safe nanToNum)
    | _, _ => self.counts
  let newExposureLivetime :=
    match self.exposure, other.exposure with
    | some s, some o =>
        let stacked := cubeStackImgW s o otherImage nanToNum
        let lt :=
          if other.livetime.isSome && (otherImage.getD []).any id then
            match self.livetime, other.livetime with
            | some a, some b => some (a + b)
            | none, some b => some b
            | a, _ => a
          else self.livetime
        (some stacked, lt)
    | _, _ => (self.exposure, self.livetime)
  let newMaskSafe :=
    match self.mask_safe, other.mask_safe with
    | some s, some o => some (cubeOrStack s o)
    | _, _ => self.mask_safe
  let newMaskFit :=
    match self.mask_fit, other.mask_fit with
    | some s, some o => some (cubeOrStack s o)
    | none, some o => some o
    | mf, _ => mf
  { self with
    counts := newCounts
    exposure := newExposureLivetime.1
    livetime := newExposureLivetime.2
    mask_safe := newMaskSafe
    mask_fit := newMaskFit }

/-- `MapDatasetOnOff.stack` (lines 2912-2983). After the type and
stackability guards: accumulate `total_acceptance` (self unweighted, other
weighted by its safe mask), `total_off` and `total_alpha` (self unweighted,
other weighted, each only when the respective `counts_off` is present); set
`acceptance_off = total_acceptance * total_off / total_alpha` except in the
bins with zero stacked off counts, which instead get
`total_acceptance / average_alpha` with
`average_alpha = total_alpha.sum() / total_off.sum()`; overwrite acceptance
and counts_off, then run the parent stack. Roles whose use would crash
Python (`None.geom`, `Map.stack(None)`) surface as errors. -/
def MapDatasetOnOff.stackWith (self other : MapDatasetOnOff) (nanToNum : Bool) :
    Except String MapDatasetOnOff := do
  if !(self.isStackable && other.isStackable) then
    throw "Cannot stack incomplete MapDatasetOnOff."
  let geomRef ← req self.counts "counts must be defined"
  let zero := geomRef.map (fun p => p.map (fun _ => (0 : ℚ)))
  let selfAcceptance ← req self.acceptance "acceptance must be defined"
  let otherAcceptance ← req other.acceptance "acceptance must be defined"
  let totalAcceptance :=
    cubeStack (cubeStack zero selfAcceptance none nanToNum)
      otherAcceptance other.mask_safe nanToNum
  let (totalOff, totalAlpha) ←
    match self.counts_off with
    | some selfOff => do
        let selfAccOff ← req self.acceptance_off "acceptance_off must be defined"
        let selfAlpha := MapDatasetOnOff.alpha selfAcceptance selfAccOff
        pure (cubeStack zero selfOff none nanToNum,
              cubeStack zero (cubeMul selfAlpha selfOff) none nanToNum)
    | none => pure (zero, zero)
  let (totalOff, totalAlpha) ←
    match other.counts_off with
    | some otherOff => do
        let otherAccOff ← req other.acceptance_off "acceptance_off must be defined"
        let otherAlpha := MapDatasetOnOff.alpha otherAcceptance otherAccOff
        pure (cubeStack totalOff otherOff other.mask_safe nanToNum,
              cubeStack totalAlpha (cubeMul otherAlpha otherOff)
                other.mask_safe nanToNum)
    | none => pure (totalOff, totalAlpha)
  let averageAlpha := qdiv (cubeSum totalAlpha) (cubeSum totalOff)
  let acceptanceOff := cubeZip3
    (fun acc off al => if off = 0 then qdiv acc averageAlpha else qdiv (acc * off) al)
    totalAcceptance totalOff totalAlpha
  let stacked := MapDatasetOnOff.stackSuper
    { self with acceptance := some totalAcceptance,
                acceptance_off := some acceptanceOff,
                counts_off := some totalOff }
    other nanToNum
  pure stacked

/-! ## Serialization (`to_hdulist` / `from_hdulist`, write/read round trip)

Maps are serialized one per role into a FITS HDU list.  The `Map` FITS
codec is an external collaborator; it is modelled from the spec: an HDU
faithfully carries the map's data values, unit and geometry, but FITS images
have no boolean pixel type, so a boolean map is stored with an integer dtype.
The axis `BANDS` table sub-units and the GTI/meta/PSF/EDISP sub-units are
outside the modelled state. -/

/-- Pixel dtype of an in-memory map or on-disk HDU. -/
inductive DType where
  | boolType : DType
  | intType : DType
  | floatType : DType
deriving DecidableEq, Repr

/-- In-memory map with dtype, unit and geometry. Boolean maps hold 0/1 data. -/
structure MapM where
  data : List ℚ
  unit : String
  geomId : Nat
  dtype : DType
deriving DecidableEq, Repr

/-- On-disk HDU. The dtype is the stored one: never boolean. -/
structure HDU where
  name : String
  data : List ℚ
  unit : String
  geomId : Nat
  dtype : DType
deriving DecidableEq, Repr

/-- `Map.to_hdulist(hdu=name)`, modelled from the spec: data, unit and
geometry are stored faithfully; a boolean map is stored as an integer mask. -/
def mapToHdu (name : String) (m : MapM) : HDU :=
  { name := name, data := m.data, unit := m.unit, geomId := m.geomId,
    dtype := if m.dtype = DType.boolType then DType.intType else m.dtype }

/-- `Map.from_hdulist(hdulist, hdu=name)`, modelled from the spec: restores
data, unit, geometry and the stored (integer/float) dtype. -/
def mapFromHdu (h : HDU) : MapM :=
  { data := h.data, unit := h.unit, geomId := h.geomId, dtype := h.dtype }

/-- `mask.data = mask.data.astype(bool)`: nonzero pixels become `True`.  The
resulting map is boolean with 0/1 data. -/
def MapM.astypeBool (m : MapM) : MapM :=
  { m with data := m.data.map (fun x => if x = 0 then 0 else 1),
           dtype := DType.boolType }

/-- Case-insensitive HDU lookup `"NAME" in hdulist` / `hdulist[name]`;
modelled with upper-case names throughout. -/
def hduFind (hs : List HDU) (name : String) : Option HDU :=
  hs.find? (fun h => h.name == name)

/-- The serializable roles of a `MapDataset` (the dataset as written/read). -/
structure MapDatasetSer where
  counts : Option MapM
  exposure : Option MapM
  background : Option MapM
  mask_safe : Option MapM
  mask_fit : Option MapM
deriving DecidableEq, Repr

/-- `MapDataset.to_hdulist` (lines 1540-1589) restricted to the modelled
roles, writing each populated role in source order; `write()` is this HDU
list persisted to disk unchanged. -/
def MapDatasetSer.toHdulist (d : MapDatasetSer) : List HDU :=
  (d.counts.map (mapToHdu "COUNTS")).toList ++
  (d.exposure.map (mapToHdu "EXPOSURE")).toList ++
  (d.background.map (mapToHdu "BACKGROUND")).toList ++
  (d.mask_safe.map (mapToHdu "MASK_SAFE")).toList ++
  (d.mask_fit.map (mapToHdu "MASK_FIT")).toList

/-- `MapDataset.from_hdulist` (lines 1591-1657) restricted to the modelled
roles; `read()` is this applied to the HDU list loaded from disk.  The safe
and fit masks are cast back to boolean dtype (`astype(bool)`); the exposure
axis rename `energy → energy_true` acts on axis names not represented in the
opaque geometry id. -/
def MapDatasetSer.fromHdulist (hs : List HDU) : MapDatasetSer :=
  { counts := (hduFind hs "COUNTS").map mapFromHdu
    exposure := (hduFind hs "EXPOSURE").map mapFromHdu
    background := (hduFind hs "BACKGROUND").map mapFromHdu
    mask_safe := (hduFind hs "MASK_SAFE").map (fun h => (mapFromHdu h).astypeBool)
    mask_fit := (hduFind hs "MASK_FIT").map (fun h => (mapFromHdu h).astypeBool) }

/-- The serializable roles of a `MapDatasetOnOff`. -/
structure MapDatasetOnOffSer where
  counts : Option MapM
  counts_off : Option MapM
  acceptance : Option MapM
  acceptance_off : Option MapM
  exposure : Option MapM
  mask_safe : Option MapM
  mask_fit : Option MapM
deriving DecidableEq, Repr

/-- `MapDatasetOnOff.to_hdulist` (lines 3014-3044): the parent list (whose
derived `BACKGROUND` entry — `alpha * counts_off` — is deleted right after
being written, so it is omitted here) followed by the off-statistic roles. -/
def MapDatasetOnOffSer.toHdulist (d : MapDatasetOnOffSer) : List HDU :=
  MapDatasetSer.toHdulist
    { counts := d.counts, exposure := d.exposure, background := none,
      mask_safe := d.mask_safe, mask_fit := d.mask_fit } ++
  (d.counts_off.map (mapToHdu "COUNTS_OFF")).toList ++
  (d.acceptance.map (mapToHdu "ACCEPTANCE")).toList ++
  (d.acceptance_off.map (mapToHdu "ACCEPTANCE_OFF")).toList

/-- `MapDatasetOnOff.from_hdulist` (lines 3052-3136) restricted to the
modelled roles.  Note: unlike `MapDataset.from_hdulist`, the `MASK_SAFE` and
`MASK_FIT` maps are *not* cast back to boolean dtype (lines 3121-3127). -/
def MapDatasetOnOffSer.fromHdulist (hs : List HDU) : MapDatasetOnOffSer :=
  { counts := (hduFind hs "COUNTS").map mapFromHdu
    counts_off := (hduFind hs "COUNTS_OFF").map mapFromHdu
    acceptance := (hduFind hs "ACCEPTANCE").map mapFromHdu
    acceptance_off := (hduFind hs "ACCEPTANCE_OFF").map mapFromHdu
    exposure := (hduFind hs "EXPOSURE").map mapFromHdu
    mask_safe := (hduFind hs "MASK_SAFE").map mapFromHdu
    mask_fit := (hduFind hs "MASK_FIT").map mapFromHdu }

/-! ## The PSF map engine (`gammapy/irf/psf/psf_map.py`) -/

/-- `np.max` over a non-empty list (0 on the empty list, which numpy
rejects). -/
def listMax : List ℚ → ℚ
  | [] => 0
  | [x] => x
  | x :: xs => max x (listMax xs)

/-- `PSFMap.get_psf_kernel` (lines 241-287), the `max_radius` determination:
only when the caller passes no `max_radius` is it computed as the smaller of
the largest tabulated rad-axis center and half the smallest target-geometry
width; a caller-given value is used as is. -/
def getPsfKernelMaxRadius (radCenters : List ℚ) (geomWidthX geomWidthY : ℚ)
    (maxRadius : Option ℚ) : ℚ :=
  match maxRadius with
  | none => min (listMax radCenters) (min geomWidthX geomWidthY / 2)
  | some r => r

/-- `Geom.to_odd_npix(max_radius=...)`, modelled from the spec: the target
geometry is forced to odd pixel counts (required for a centerable kernel),
covering the given radius at the given pixel size. -/
def toOddNpix (binsz radius : ℚ) : Nat :=
  2 * (⌊radius / binsz⌋).toNat + 1

/-- The pixel count of the geometry on which `get_psf_kernel` builds the
kernel: `geom.to_odd_npix(max_radius=max_radius)` applied to the radius
selected above. -/
def getPsfKernelNpix (radCenters : List ℚ) (geomWidthX geomWidthY binsz : ℚ)
    (maxRadius : Option ℚ) : Nat :=
  toOddNpix binsz (getPsfKernelMaxRadius radCenters geomWidthX geomWidthY maxRadius)

/-- `np.random.RandomState.uniform(low, high)` (high defaults to 1.0),
modelled from numpy: `low + (high - low) * u` with `u` drawn uniformly from
`[0, 1)`. -/
def numpyUniform (low high u : ℚ) : ℚ := low + (high - low) * u

/-- The position angle drawn by `PSFMap.sample_coord` (line 325):
`random_state.uniform(360, size=...)`, i.e. `low = 360` with the *default*
`high = 1.0`, evaluated at one underlying uniform draw `u ∈ [0, 1)`. -/
def sampleCoordPositionAngle (u : ℚ) : ℚ := numpyUniform 360 1 u

/-- The radial PDF built by `PSFMap.sample_coord` (lines 315-319):
`psf_map.interp_by_coord(coord) * rad_axis.center.value * rad_axis.bin_width.value`
per rad bin, for one event's interpolated PSF row. -/
def sampleCoordPdfRow (interp radCenters radWidths : List ℚ) : List ℚ :=
  imgZip3 (fun i c w => i * c * w) interp radCenters radWidths

/-- Cumulative sums of a list starting from `acc`. -/
def cumsum : List ℚ → ℚ → List ℚ
  | [], _ => []
  | x :: xs, acc => (acc + x) :: cumsum xs (acc + x)

/-- Modelled from the spec: `InverseCDFSampler.sample_axis`
(`gammapy.utils.random`, not under src/) — "draw a pixel index along the rad
axis via inverse-CDF sampling per event": the first bin whose normalized
cumulative PDF exceeds the uniform draw. -/
def inverseCdfSampleIdx (pdf : List ℚ) (u : ℚ) : Nat :=
  (cumsum pdf 0).findIdx (fun c => u * pdf.sum < c)

/-- One event of `PSFMap.sample_coord` (lines 289-332): build the radial pdf,
draw a rad pixel by inverse-CDF sampling and map it back to a separation
(`rad_axis.pix_to_coord`), and draw the position angle; the returned pair
(separation, position angle) parameterises
`skycoord.directional_offset_by` (external astropy call). -/
def sampleCoordEvent (interp radCenters radWidths : List ℚ) (uRad uAng : ℚ) :
    ℚ × ℚ :=
  let pdf := sampleCoordPdfRow interp radCenters radWidths
  let idx := inverseCdfSampleIdx pdf uRad
  let separation := radCenters.getD idx 0
  (separation, sampleCoordPositionAngle uAng)

/-! ## Theorems -/

/-- All entries produced by the negative-bin clipping are nonnegative. -/
theorem cubeClip0_nonneg (c : Cube) : ∀ p ∈ cubeClip0 c, ∀ x ∈ p, 0 ≤ x := by
  intro p hp x hx
  simp only [cubeClip0, List.mem_map] at hp
  obtain ⟨q, _, rfl⟩ := hp
  simp only [imgClip0, List.mem_map] at hx
  obtain ⟨y, _, rfl⟩ := hx
  by_cases h : y < 0 <;> simp [h] <;> linarith

/-- `npred_background` only touches the two background-cache fields: the
counts map is untouched. -/
theorem npredBackground_counts (d : MapDataset) :
    d.npredBackground.2.counts = d.counts := by
  rcases hbg : d.background with _ | bg <;> rcases hm : d.backgroundModel with _ | m <;>
    simp [MapDataset.npredBackground, hbg, hm]
  by_cases hch : backgroundParametersChanged d.backgroundParametersCached m.params = true <;>
    simp [hch]

/-- `npred_background` leaves the background map untouched. -/
theorem npredBackground_background (d : MapDataset) :
    d.npredBackground.2.background = d.background := by
  rcases hbg : d.background with _ | bg <;> rcases hm : d.backgroundModel with _ | m <;>
    simp [MapDataset.npredBackground, hbg, hm]
  by_cases hch : backgroundParametersChanged d.backgroundParametersCached m.params = true <;>
    simp [hch, hbg]

/-- `npred_background` leaves the masks untouched. -/
theorem npredBackground_masks (d : MapDataset) :
    d.npredBackground.2.mask_safe = d.mask_safe ∧
      d.npredBackground.2.mask_fit = d.mask_fit := by
  rcases hbg : d.background with _ | bg <;> rcases hm : d.backgroundModel with _ | m <;>
    simp [MapDataset.npredBackground, hbg, hm]
  by_cases hch : backgroundParametersChanged d.backgroundParametersCached m.params = true <;>
    simp [hch]

/-- `npred_background` leaves the evaluators untouched. -/
theorem npredBackground_evaluators (d : MapDataset) :
    d.npredBackground.2.evaluators = d.evaluators := by
  rcases hbg : d.background with _ | bg <;> rcases hm : d.backgroundModel with _ | m <;>
    simp [MapDataset.npredBackground, hbg, hm]
  by_cases hch : backgroundParametersChanged d.backgroundParametersCached m.params = true <;>
    simp [hch]

/-- The reference geometry only reads the four geometry-determining roles. -/
theorem geom_congr (d1 d2 : MapDataset) (h1 : d1.counts = d2.counts)
    (h2 : d1.background = d2.background) (h3 : d1.mask_safe = d2.mask_safe)
    (h4 : d1.mask_fit = d2.mask_fit) : d1.geom = d2.geom := by
  simp [MapDataset.geom, h1, h2, h3, h4]

/-- `npred_signal` only reads the evaluators. -/
theorem npredSignal_congr (d1 d2 : MapDataset) (g : Cube) (s : Bool)
    (h : d1.evaluators = d2.evaluators) :
    d1.npredSignal g s = d2.npredSignal g s := by
  simp [MapDataset.npredSignal, h]

/-- A second `npred_background` call on the state left by a first call gives
the same map and leaves the state unchanged. -/
theorem npredBackground_idem (d : MapDataset) :
    d.npredBackground.2.npredBackground = d.npredBackground := by
  rcases hbg : d.background with _ | bg <;> rcases hm : d.backgroundModel with _ | m
  · simp [MapDataset.npredBackground, hbg, hm]
  · simp [MapDataset.npredBackground, hbg, hm]
  · simp [MapDataset.npredBackground, hbg, hm]
  · by_cases hch : backgroundParametersChanged d.backgroundParametersCached m.params = true
    · simp only [MapDataset.npredBackground, hbg, hm, hch, if_true]
      by_cases hch2 : backgroundParametersChanged (some m.params) m.params = true <;>
        simp [hch2]
    · simp [MapDataset.npredBackground, hbg, hm, hch]

/-- The background value returned by `npred_background` together with the
claim-side decomposition of `npred`. -/
theorem npredBackground_total (d : MapDataset)
    (hwf : d.backgroundCached.isSome ∨ d.backgroundParametersCached = none) :
    ∃ bgOpt d2, d.npredBackground = (bgOpt, d2) ∧
      (d.background.isSome → bgOpt.isSome) := by
  rcases hbg : d.background with _ | bg
  · rcases hm : d.backgroundModel with _ | m
    · exact ⟨none, d, by simp [MapDataset.npredBackground, hbg, hm], by simp⟩
    · exact ⟨none, d, by simp [MapDataset.npredBackground, hbg, hm], by simp⟩
  · rcases hm : d.backgroundModel with _ | m
    · exact ⟨some bg, d, by simp [MapDataset.npredBackground, hbg, hm], by simp⟩
    · by_cases hch : backgroundParametersChanged d.backgroundParametersCached m.params = true
      · refine ⟨some (cubeMul bg (m.evaluateGeom m.params)),
          { d with backgroundParametersCached := some m.params,
                   backgroundCached := some (cubeMul bg (m.evaluateGeom m.params)) },
          ?_, by simp⟩
        simp [MapDataset.npredBackground, hbg, hm, hch]
      · rcases hwf with hs | hn
        · rcases hc : d.backgroundCached with _ | c
          · rw [hc] at hs; simp at hs
          · refine ⟨some c, d, ?_, by simp⟩
            simp [MapDataset.npredBackground, hbg, hm, hch, hc]
        · exfalso
          rw [hn] at hch
          simp [backgroundParametersChanged] at hch

/-- C1: for every well-formed dataset, `npred()` equals
`npred_signal() + npred_background()` elementwise — the background term being
omitted when no background is present — with every negative resulting bin
value clipped to 0, and a second call with unchanged model parameters returns
the same map (and the same cache state). -/
theorem mapDataset_npred_signal_plus_background (d : MapDataset) (g : Cube)
    (hg : d.geom = Except.ok g)
    (hwf : d.backgroundCached.isSome = true ∨ d.backgroundParametersCached = none) :
    ∃ npredMap d2,
      d.npred = Except.ok (npredMap, d2) ∧
      ((d.background = none ∧
          npredMap = cubeClip0 (d.npredSignal g true).data) ∨
        (∃ bgMap, d.npredBackground.1 = some bgMap ∧
          npredMap = cubeClip0 (cubeAdd (d.npredSignal g true).data bgMap))) ∧
      (∀ p ∈ npredMap, ∀ x ∈ p, 0 ≤ x) ∧
      d2.npred = Except.ok (npredMap, d2) := by
  obtain ⟨bgOpt, dN, hnb, hsome⟩ := npredBackground_total d hwf
  rcases hbg : d.background with _ | bg
  · refine ⟨cubeClip0 (d.npredSignal g true).data, d,
      ?_, Or.inl ⟨rfl, rfl⟩, cubeClip0_nonneg _, ?_⟩
    · simp [MapDataset.npred, hg, hbg, Except.bind]
    · simp [MapDataset.npred, hg, hbg, Except.bind]
  · obtain ⟨B, hB⟩ := Option.isSome_iff_exists.mp (hsome (by simp [hbg]))
    subst hB
    have hdN : d.npredBackground.2 = dN := by rw [hnb]
    have hg2 : dN.geom = Except.ok g := by
      rw [geom_congr dN d]
      · exact hg
      · rw [← hdN]; exact npredBackground_counts d
      · rw [← hdN]; exact npredBackground_background d
      · rw [← hdN]; exact (npredBackground_masks d).1
      · rw [← hdN]; exact (npredBackground_masks d).2
    have hsig2 : dN.npredSignal g true = d.npredSignal g true := by
      apply npredSignal_congr
      rw [← hdN]; exact npredBackground_evaluators d
    have hbg2 : dN.background = some bg := by
      rw [← hdN, npredBackground_background d]; exact hbg
    have hnb2 : dN.npredBackground = (some B, dN) := by
      have := npredBackground_idem d
      rw [hnb] at this
      exact this
    refine ⟨cubeClip0 (cubeAdd (d.npredSignal g true).data B), dN,
      ?_, Or.inr ⟨B, by rw [hnb], rfl⟩, cubeClip0_nonneg _, ?_⟩
    · simp [MapDataset.npred, hg, hbg, hnb, Except.bind]
    · simp [MapDataset.npred, hg2, hbg2, hnb2, hsig2, Except.bind]

/-- A concrete Cash dataset exercising the npred decomposition: one
contributing evaluator with a negative bin, a background map and an attached
`FoVBackgroundModel` with an empty cache. -/
def sampleCashDataset : MapDataset :=
  { counts := some [[1, 2]], exposure := none, livetime := none
    background := some [[1, 1]], psf := none, edisp := none
    mask_safe := none, mask_fit := none
    evaluators := [("model-1", { contributes := true, npredData := [[-5, 4]] })]
    backgroundModel := some { params := [FVal.val 2], evaluateGeom := fun _ => [[3, 3]] }
    backgroundParametersCached := none, backgroundCached := none
    stat_type := "cash" }

/-- Witness for C1 at `sampleCashDataset`. -/
theorem mapDataset_npred_signal_plus_background_witness :
    sampleCashDataset.geom = Except.ok [[1, 2]] ∧
    (sampleCashDataset.backgroundCached.isSome = true ∨
      sampleCashDataset.backgroundParametersCached = none) ∧
    (∃ npredMap d2,
      sampleCashDataset.npred = Except.ok (npredMap, d2) ∧
      ((sampleCashDataset.background = none ∧
          npredMap = cubeClip0 (sampleCashDataset.npredSignal [[1, 2]] true).data) ∨
        (∃ bgMap, sampleCashDataset.npredBackground.1 = some bgMap ∧
          npredMap = cubeClip0
            (cubeAdd (sampleCashDataset.npredSignal [[1, 2]] true).data bgMap))) ∧
      (∀ p ∈ npredMap, ∀ x ∈ p, 0 ≤ x) ∧
      d2.npred = Except.ok (npredMap, d2)) :=
  ⟨by rfl, Or.inr rfl,
    mapDataset_npred_signal_plus_background sampleCashDataset [[1, 2]] (by rfl)
      (Or.inr rfl)⟩

/-- The counts map produced by `MapDataset.stack`: the later steps of the
stack sequence never touch counts. -/
theorem stackWith_counts (self other : MapDataset) (n2n : Bool) (s o : Cube)
    (hs : self.counts = some s) (ho : other.counts = some o) :
    (self.stackWith other n2n).counts = some (cubeStack s o other.mask_safe n2n) := by
  simp [MapDataset.stackWith, hs, ho]

/-- The safe mask produced by `MapDataset.stack` when both are present:
logical or. -/
theorem stackWith_mask_safe (self other : MapDataset) (n2n : Bool) (ms mo : BCube)
    (hs : self.mask_safe = some ms) (ho : other.mask_safe = some mo) :
    (self.stackWith other n2n).mask_safe = some (cubeOrStack ms mo) := by
  simp [MapDataset.stackWith, hs, ho]

/-- Pointwise value of a mask-weighted plane stack. -/
theorem imgStack_some_getD (n2n : Bool) :
    ∀ (s o : Image) (m : BImage) (i : Nat), i < s.length →
      o.length = s.length → m.length = s.length →
      (imgStack s o (some m) n2n).getD i 0 =
        s.getD i 0 + (if m.getD i false then o.getD i 0 else 0) := by
  intro s
  induction s with
  | nil => intro o m i hi _ _; exact absurd hi (by simp)
  | cons sh st ih =>
      intro o m i hi ho hm
      cases o with
      | nil => exact absurd ho (by simp)
      | cons oh ot =>
          cases m with
          | nil => exact absurd hm (by simp)
          | cons mh mt =>
              cases i with
              | zero => simp [imgStack, nanToNumQ]
              | succ j =>
                  have hj : j < st.length := by
                    simpa [Nat.succ_lt_succ_iff] using hi
                  have ho' : ot.length = st.length := by simpa using ho
                  have hm' : mt.length = st.length := by simpa using hm
                  simpa [imgStack, nanToNumQ] using ih ot mt j hj ho' hm'

/-- Plane extraction from a mask-weighted cube stack. -/
theorem cubeStack_some_getD (n2n : Bool) :
    ∀ (s o : Cube) (mw : BCube) (p : Nat), p < s.length →
      o.length = s.length → mw.length = s.length →
      (cubeStack s o (some mw) n2n).getD p [] =
        imgStack (s.getD p []) (o.getD p []) (some (mw.getD p [])) n2n := by
  intro s
  induction s with
  | nil => intro o mw p hp _ _; exact absurd hp (by simp)
  | cons sh st ih =>
      intro o mw p hp ho hmw
      cases o with
      | nil => exact absurd ho (by simp)
      | cons oh ot =>
          cases mw with
          | nil => exact absurd hmw (by simp)
          | cons mh mt =>
              cases p with
              | zero => simp [cubeStack]
              | succ q =>
                  have hq : q < st.length := by
                    simpa [Nat.succ_lt_succ_iff] using hp
                  have ho' : ot.length = st.length := by simpa using ho
                  have hm' : mt.length = st.length := by simpa using hmw
                  simpa [cubeStack] using ih ot mt q hq ho' hm'

/-- C2: `stack(other)` merges in place restricted to bins where
`other.mask_safe` is true: each stacked counts bin equals self's counts plus
other's counts multiplied by other's safe-mask indicator; bins outside the
other safe mask contribute nothing and no mask is applied to the current
dataset's own contribution. -/
theorem mapDataset_stack_counts_masked (self other : MapDataset) (n2n : Bool)
    (s o : Cube) (m : BCube)
    (hs : self.counts = some s) (ho : other.counts = some o)
    (hm : other.mask_safe = some m)
    (hlen : o.length = s.length) (hmlen : m.length = s.length)
    (hplanes : ∀ p : Nat, (o.getD p []).length = (s.getD p []).length ∧
      (m.getD p []).length = (s.getD p []).length) :
    ∃ r, (self.stackWith other n2n).counts = some r ∧
      ∀ p : Nat, p < s.length → ∀ i : Nat, i < (s.getD p []).length →
        (r.getD p []).getD i 0 =
          (s.getD p []).getD i 0 +
            (if (m.getD p []).getD i false then (o.getD p []).getD i 0 else 0) := by
  refine ⟨cubeStack s o (some m) n2n, ?_, ?_⟩
  · rw [stackWith_counts self other n2n s o hs ho, hm]
  · intro p hp i hi
    rw [cubeStack_some_getD n2n s o m p hp hlen hmlen]
    exact imgStack_some_getD n2n (s.getD p []) (o.getD p []) (m.getD p []) i hi
      (hplanes p).1 (hplanes p).2

/-- A pair of concrete Cash datasets for the stacking claims; the second one
has a mixed safe mask. -/
def stackSelfDataset : MapDataset :=
  { counts := some [[1, 2], [3, 4]], exposure := none, livetime := none
    background := none, psf := none, edisp := none
    mask_safe := some [[false, false], [true, true]], mask_fit := none
    evaluators := [], backgroundModel := none
    backgroundParametersCached := none, backgroundCached := none
    stat_type := "cash" }

/-- The per-observation dataset stacked onto `stackSelfDataset`. -/
def stackOtherDataset : MapDataset :=
  { counts := some [[10, 20], [30, 40]], exposure := none, livetime := none
    background := none, psf := none, edisp := none
    mask_safe := some [[true, false], [false, true]], mask_fit := none
    evaluators := [], backgroundModel := none
    backgroundParametersCached := none, backgroundCached := none
    stat_type := "cash" }

/-- Witness for C2 at the concrete dataset pair. -/
theorem mapDataset_stack_counts_masked_witness :
    stackSelfDataset.counts = some [[1, 2], [3, 4]] ∧
    stackOtherDataset.counts = some [[10, 20], [30, 40]] ∧
    stackOtherDataset.mask_safe = some [[true, false], [false, true]] ∧
    (∃ r, (stackSelfDataset.stackWith stackOtherDataset true).counts = some r ∧
      ∀ p : Nat, p < ([[1, 2], [3, 4]] : Cube).length →
        ∀ i : Nat, i < (([[1, 2], [3, 4]] : Cube).getD p []).length →
        (r.getD p []).getD i 0 =
          ((([[1, 2], [3, 4]] : Cube)).getD p []).getD i 0 +
            (if (([[true, false], [false, true]] : BCube).getD p []).getD i false
              then (([[10, 20], [30, 40]] : Cube).getD p []).getD i 0 else 0)) :=
  ⟨rfl, rfl, rfl,
    mapDataset_stack_counts_masked stackSelfDataset stackOtherDataset true
      [[1, 2], [3, 4]] [[10, 20], [30, 40]] [[true, false], [false, true]]
      rfl rfl rfl (by decide) (by decide)
      (fun p => by
        match p with
        | 0 => exact ⟨rfl, rfl⟩
        | 1 => exact ⟨rfl, rfl⟩
        | Nat.succ (Nat.succ q) => exact ⟨rfl, rfl⟩)⟩

/-- Lengths of the planes of a shape-checked nested list. -/
theorem allShape_getD_length {α : Type} :
    ∀ (c : List (List α)) (nE nPix : Nat),
      (c.length == nE && c.all (fun p => p.length == nPix)) = true →
      c.length = nE ∧ ∀ p : Nat, (c.getD p []).length = if p < nE then nPix else 0 := by
  intro c
  induction c with
  | nil =>
      intro nE nPix h
      simp only [List.length_nil, List.all_nil, Bool.and_true, beq_iff_eq] at h
      subst h
      exact ⟨rfl, fun p => by simp [List.getD]⟩
  | cons x xs ih =>
      intro nE nPix h
      simp only [List.length_cons, List.all_cons, Bool.and_assoc, Bool.and_eq_true,
        beq_iff_eq] at h
      obtain ⟨hlen, hx, hxs⟩ := h
      subst hlen
      have ihr := ih xs.length nPix (by simp [hxs])
      refine ⟨rfl, fun p => ?_⟩
      cases p with
      | zero => simp [List.getD_cons_zero, hx]
      | succ q =>
          rw [List.getD_cons_succ, (ihr.2 q)]
          by_cases hq : q < xs.length
          · simp [hq, Nat.succ_lt_succ hq]
          · simp [hq, fun hlt => hq (Nat.lt_of_succ_lt_succ hlt)]

/-- Stacking three masked contributions onto a base plane is order
independent. -/
theorem imgStack_comm3 (n1 n2 n3 : Bool) :
    ∀ (z a b c : Image) (ma mb mc : BImage),
      a.length = z.length → b.length = z.length → c.length = z.length →
      ma.length = z.length → mb.length = z.length → mc.length = z.length →
      imgStack (imgStack (imgStack z a (some ma) n1) b (some mb) n2) c (some mc) n3 =
        imgStack (imgStack (imgStack z c (some mc) n3) b (some mb) n2) a (some ma) n1 := by
  intro z
  induction z with
  | nil =>
      intro a b c ma mb mc ha hb hc hma hmb hmc
      rw [List.length_nil, List.length_eq_zero] at ha hb hc hma hmb hmc
      subst ha; subst hb; subst hc; subst hma; subst hmb; subst hmc
      rfl
  | cons zh zt ih =>
      intro a b c ma mb mc ha hb hc hma hmb hmc
      rcases a with _ | ⟨ah, at2⟩; · exact absurd ha (by simp)
      rcases b with _ | ⟨bh, bt⟩; · exact absurd hb (by simp)
      rcases c with _ | ⟨ch, ct⟩; · exact absurd hc (by simp)
      rcases ma with _ | ⟨mah, mat⟩; · exact absurd hma (by simp)
      rcases mb with _ | ⟨mbh, mbt⟩; · exact absurd hmb (by simp)
      rcases mc with _ | ⟨mch, mct⟩; · exact absurd hmc (by simp)
      simp only [imgStack, List.zip_cons_cons, List.zipWith_cons_cons, nanToNumQ,
        List.cons.injEq]
      constructor
      · ring
      · have := ih at2 bt ct mat mbt mct (by simpa using ha) (by simpa using hb)
          (by simpa using hc) (by simpa using hma) (by simpa using hmb)
          (by simpa using hmc)
        simpa [imgStack, nanToNumQ] using this

/-- Stacking three masked cubes onto a base cube is order independent. -/
theorem cubeStack_comm3 (n1 n2 n3 : Bool) :
    ∀ (z a b c : Cube) (ma mb mc : BCube),
      a.length = z.length → b.length = z.length → c.length = z.length →
      ma.length = z.length → mb.length = z.length → mc.length = z.length →
      (∀ p : Nat, (a.getD p []).length = (z.getD p []).length) →
      (∀ p : Nat, (b.getD p []).length = (z.getD p []).length) →
      (∀ p : Nat, (c.getD p []).length = (z.getD p []).length) →
      (∀ p : Nat, (ma.getD p []).length = (z.getD p []).length) →
      (∀ p : Nat, (mb.getD p []).length = (z.getD p []).length) →
      (∀ p : Nat, (mc.getD p []).length = (z.getD p []).length) →
      cubeStack (cubeStack (cubeStack z a (some ma) n1) b (some mb) n2) c (some mc) n3 =
        cubeStack (cubeStack (cubeStack z c (some mc) n3) b (some mb) n2) a (some ma) n1 := by
  intro z
  induction z with
  | nil =>
      intro a b c ma mb mc ha hb hc hma hmb hmc _ _ _ _ _ _
      rw [List.length_nil, List.length_eq_zero] at ha hb hc hma hmb hmc
      subst ha; subst hb; subst hc; subst hma; subst hmb; subst hmc
      rfl
  | cons zh zt ih =>
      intro a b c ma mb mc ha hb hc hma hmb hmc pa pb pc pma pmb pmc
      rcases a with _ | ⟨ah, at2⟩; · exact absurd ha (by simp)
      rcases b with _ | ⟨bh, bt⟩; · exact absurd hb (by simp)
      rcases c with _ | ⟨ch, ct⟩; · exact absurd hc (by simp)
      rcases ma with _ | ⟨mah, mat⟩; · exact absurd hma (by simp)
      rcases mb with _ | ⟨mbh, mbt⟩; · exact absurd hmb (by simp)
      rcases mc with _ | ⟨mch, mct⟩; · exact absurd hmc (by simp)
      simp only [cubeStack, List.zip_cons_cons, List.zipWith_cons_cons,
        List.cons.injEq]
      constructor
      · exact imgStack_comm3 n1 n2 n3 zh ah bh ch mah mbh mch
          (by simpa using pa 0) (by simpa using pb 0) (by simpa using pc 0)
          (by simpa using pma 0) (by simpa using pmb 0) (by simpa using pmc 0)
      · have := ih at2 bt ct mat mbt mct (by simpa using ha) (by simpa using hb)
          (by simpa using hc) (by simpa using hma) (by simpa using hmb)
          (by simpa using hmc)
          (fun p => by simpa using pa (p + 1)) (fun p => by simpa using pb (p + 1))
          (fun p => by simpa using pc (p + 1)) (fun p => by simpa using pma (p + 1))
          (fun p => by simpa using pmb (p + 1)) (fun p => by simpa using pmc (p + 1))
        simpa [cubeStack] using this

/-- Or-stacking three mask planes onto a base plane is order independent. -/
theorem imgOrStack_comm3 :
    ∀ (z a b c : BImage),
      a.length = z.length → b.length = z.length → c.length = z.length →
      imgOrStack (imgOrStack (imgOrStack z a) b) c =
        imgOrStack (imgOrStack (imgOrStack z c) b) a := by
  intro z
  induction z with
  | nil =>
      intro a b c ha hb hc
      rw [List.length_nil, List.length_eq_zero] at ha hb hc
      subst ha; subst hb; subst hc
      rfl
  | cons zh zt ih =>
      intro a b c ha hb hc
      rcases a with _ | ⟨ah, at2⟩; · exact absurd ha (by simp)
      rcases b with _ | ⟨bh, bt⟩; · exact absurd hb (by simp)
      rcases c with _ | ⟨ch, ct⟩; · exact absurd hc (by simp)
      simp only [imgOrStack, List.zipWith_cons_cons, List.cons.injEq]
      constructor
      · cases zh <;> cases ah <;> cases bh <;> cases ch <;> rfl
      · have := ih at2 bt ct (by simpa using ha) (by simpa using hb)
          (by simpa using hc)
        simpa [imgOrStack] using this

/-- Or-stacking three mask cubes onto a base cube is order independent. -/
theorem cubeOrStack_comm3 :
    ∀ (z a b c : BCube),
      a.length = z.length → b.length = z.length → c.length = z.length →
      (∀ p : Nat, (a.getD p []).length = (z.getD p []).length) →
      (∀ p : Nat, (b.getD p []).length = (z.getD p []).length) →
      (∀ p : Nat, (c.getD p []).length = (z.getD p []).length) →
      cubeOrStack (cubeOrStack (cubeOrStack z a) b) c =
        cubeOrStack (cubeOrStack (cubeOrStack z c) b) a := by
  intro z
  induction z with
  | nil =>
      intro a b c ha hb hc _ _ _
      rw [List.length_nil, List.length_eq_zero] at ha hb hc
      subst ha; subst hb; subst hc
      rfl
  | cons zh zt ih =>
      intro a b c ha hb hc pa pb pc
      rcases a with _ | ⟨ah, at2⟩; · exact absurd ha (by simp)
      rcases b with _ | ⟨bh, bt⟩; · exact absurd hb (by simp)
      rcases c with _ | ⟨ch, ct⟩; · exact absurd hc (by simp)
      simp only [cubeOrStack, List.zipWith_cons_cons, List.cons.injEq]
      constructor
      · exact imgOrStack_comm3 zh ah bh ch (by simpa using pa 0)
          (by simpa using pb 0) (by simpa using pc 0)
      · have := ih at2 bt ct (by simpa using ha) (by simpa using hb)
          (by simpa using hc)
          (fun p => by simpa using pa (p + 1)) (fun p => by simpa using pb (p + 1))
          (fun p => by simpa using pc (p + 1))
        simpa [cubeOrStack] using this

/-- The zero cube of `from_geoms` has the announced shape. -/
theorem zeroCube_shape (nE nPix : Nat) : cubeShape (zeroCube nE nPix) nE nPix = true := by
  simp only [cubeShape, zeroCube, List.length_replicate, beq_self_eq_true,
    Bool.true_and, List.all_eq_true]
  intro p hp
  simp [List.eq_of_mem_replicate hp]

/-- The all-false mask of `from_geoms` has the announced shape. -/
theorem falseCube_shape (nE nPix : Nat) :
    bcubeShape (falseCube nE nPix) nE nPix = true := by
  simp only [bcubeShape, falseCube, List.length_replicate, beq_self_eq_true,
    Bool.true_and, List.all_eq_true]
  intro p hp
  simp [List.eq_of_mem_replicate hp]

/-- C5: stacking three Cash datasets with (possibly different) safe masks
into an empty dataset created from the common geometry gives the same masked
total counts in the order A, B, C as in the order C, B, A. -/
theorem cash_stacking_order_independent (nE nPix : Nat) (A B C : MapDataset)
    (n2n : Bool) (cA cB cC : Cube) (mA mB mC : BCube)
    (hcA : A.counts = some cA) (hmA : A.mask_safe = some mA)
    (hcB : B.counts = some cB) (hmB : B.mask_safe = some mB)
    (hcC : C.counts = some cC) (hmC : C.mask_safe = some mC)
    (hsA : cubeShape cA nE nPix = true) (hsB : cubeShape cB nE nPix = true)
    (hsC : cubeShape cC nE nPix = true)
    (hsmA : bcubeShape mA nE nPix = true) (hsmB : bcubeShape mB nE nPix = true)
    (hsmC : bcubeShape mC nE nPix = true) :
    ((((MapDataset.fromGeoms nE nPix).stackWith A n2n).stackWith B n2n).stackWith
        C n2n).maskedTotalCounts =
      ((((MapDataset.fromGeoms nE nPix).stackWith C n2n).stackWith B n2n).stackWith
        A n2n).maskedTotalCounts := by
  have zs := allShape_getD_length (zeroCube nE nPix) nE nPix
    (by simpa [cubeShape] using zeroCube_shape nE nPix)
  have fs := allShape_getD_length (falseCube nE nPix) nE nPix
    (by simpa [bcubeShape] using falseCube_shape nE nPix)
  have sA := allShape_getD_length cA nE nPix (by simpa [cubeShape] using hsA)
  have sB := allShape_getD_length cB nE nPix (by simpa [cubeShape] using hsB)
  have sC := allShape_getD_length cC nE nPix (by simpa [cubeShape] using hsC)
  have sMA := allShape_getD_length mA nE nPix (by simpa [bcubeShape] using hsmA)
  have sMB := allShape_getD_length mB nE nPix (by simpa [bcubeShape] using hsmB)
  have sMC := allShape_getD_length mC nE nPix (by simpa [bcubeShape] using hsmC)
  have heC : (MapDataset.fromGeoms nE nPix).counts = some (zeroCube nE nPix) := rfl
  have heM : (MapDataset.fromGeoms nE nPix).mask_safe = some (falseCube nE nPix) := rfl
  -- the A-B-C chain
  have h1C := stackWith_counts (MapDataset.fromGeoms nE nPix) A n2n _ _ heC hcA
  rw [hmA] at h1C
  have h1M := stackWith_mask_safe (MapDataset.fromGeoms nE nPix) A n2n _ _ heM hmA
  have h2C := stackWith_counts _ B n2n _ _ h1C hcB
  rw [hmB] at h2C
  have h2M := stackWith_mask_safe _ B n2n _ _ h1M hmB
  have h3C := stackWith_counts _ C n2n _ _ h2C hcC
  rw [hmC] at h3C
  have h3M := stackWith_mask_safe _ C n2n _ _ h2M hmC
  -- the C-B-A chain
  have g1C := stackWith_counts (MapDataset.fromGeoms nE nPix) C n2n _ _ heC hcC
  rw [hmC] at g1C
  have g1M := stackWith_mask_safe (MapDataset.fromGeoms nE nPix) C n2n _ _ heM hmC
  have g2C := stackWith_counts _ B n2n _ _ g1C hcB
  rw [hmB] at g2C
  have g2M := stackWith_mask_safe _ B n2n _ _ g1M hmB
  have g3C := stackWith_counts _ A n2n _ _ g2C hcA
  rw [hmA] at g3C
  have g3M := stackWith_mask_safe _ A n2n _ _ g2M hmA
  -- the accumulated maps agree up to reordering
  have hcounts :
      cubeStack (cubeStack (cubeStack (zeroCube nE nPix) cA (some mA) n2n) cB
          (some mB) n2n) cC (some mC) n2n =
        cubeStack (cubeStack (cubeStack (zeroCube nE nPix) cC (some mC) n2n) cB
          (some mB) n2n) cA (some mA) n2n :=
    cubeStack_comm3 n2n n2n n2n (zeroCube nE nPix) cA cB cC mA mB mC
      (sA.1.trans zs.1.symm) (sB.1.trans zs.1.symm) (sC.1.trans zs.1.symm)
      (sMA.1.trans zs.1.symm) (sMB.1.trans zs.1.symm) (sMC.1.trans zs.1.symm)
      (fun p => (sA.2 p).trans (zs.2 p).symm) (fun p => (sB.2 p).trans (zs.2 p).symm)
      (fun p => (sC.2 p).trans (zs.2 p).symm) (fun p => (sMA.2 p).trans (zs.2 p).symm)
      (fun p => (sMB.2 p).trans (zs.2 p).symm) (fun p => (sMC.2 p).trans (zs.2 p).symm)
  have hmask :
      cubeOrStack (cubeOrStack (cubeOrStack (falseCube nE nPix) mA) mB) mC =
        cubeOrStack (cubeOrStack (cubeOrStack (falseCube nE nPix) mC) mB) mA :=
    cubeOrStack_comm3 (falseCube nE nPix) mA mB mC
      (sMA.1.trans fs.1.symm) (sMB.1.trans fs.1.symm) (sMC.1.trans fs.1.symm)
      (fun p => (sMA.2 p).trans (fs.2 p).symm) (fun p => (sMB.2 p).trans (fs.2 p).symm)
      (fun p => (sMC.2 p).trans (fs.2 p).symm)
  simp only [MapDataset.maskedTotalCounts, h3C, h3M, g3C, g3M, hcounts, hmask]

/-- A third concrete dataset, with yet another safe mask. -/
def stackThirdDataset : MapDataset :=
  { counts := some [[100, 200], [300, 400]], exposure := none, livetime := none
    background := none, psf := none, edisp := none
    mask_safe := some [[true, true], [false, false]], mask_fit := none
    evaluators := [], backgroundModel := none
    backgroundParametersCached := none, backgroundCached := none
    stat_type := "cash" }

/-- Witness for C5 at three datasets whose safe masks all differ. -/
theorem cash_stacking_order_independent_witness :
    cubeShape [[1, 2], [3, 4]] 2 2 = true ∧
    bcubeShape [[false, false], [true, true]] 2 2 = true ∧
    bcubeShape [[true, false], [false, true]] 2 2 = true ∧
    bcubeShape [[true, true], [false, false]] 2 2 = true ∧
    ((((MapDataset.fromGeoms 2 2).stackWith stackSelfDataset true).stackWith
        stackOtherDataset true).stackWith stackThirdDataset true).maskedTotalCounts =
      ((((MapDataset.fromGeoms 2 2).stackWith stackThirdDataset true).stackWith
        stackOtherDataset true).stackWith stackSelfDataset true).maskedTotalCounts :=
  ⟨by decide, by decide, by decide, by decide,
    cash_stacking_order_independent 2 2 stackSelfDataset stackOtherDataset
      stackThirdDataset true [[1, 2], [3, 4]] [[10, 20], [30, 40]]
      [[100, 200], [300, 400]] [[false, false], [true, true]]
      [[true, false], [false, true]] [[true, true], [false, false]]
      rfl rfl rfl rfl rfl rfl
      (by decide) (by decide) (by decide) (by decide) (by decide) (by decide)⟩

/-- The boolean comparison of `_background_parameters_changed` agrees with
the spec-side elementwise reading in which NaN is never equal. -/
theorem parametersUnchanged_iff (a v : List FVal) :
    (a.length == v.length && (a.zip v).all (fun p => p.1.ieeeEq p.2)) = true ↔
      SpecParametersUnchanged a v := by
  constructor
  · intro h
    rw [Bool.and_eq_true, beq_iff_eq, List.all_eq_true] at h
    obtain ⟨hlen, hall⟩ := h
    refine ⟨hlen, fun i hc hv => ?_⟩
    have hzlen : i < (a.zip v).length := by
      rw [List.length_zip]; omega
    have hmem : (a.zip v).get ⟨i, hzlen⟩ ∈ a.zip v := List.get_mem _ _ _
    have hval := hall _ hmem
    rw [List.get_eq_getElem, List.getElem_zip] at hval
    cases hci : a[i] with
    | nan => rw [hci] at hval; simp [FVal.ieeeEq] at hval
    | val q =>
        cases hvi : v[i] with
        | nan => rw [hci, hvi] at hval; simp [FVal.ieeeEq] at hval
        | val r =>
            rw [hci, hvi] at hval
            simp only [FVal.ieeeEq, beq_iff_eq] at hval
            exact ⟨q, by simp [List.get_eq_getElem, hci],
              by simp [List.get_eq_getElem, hvi, hval]⟩
  · intro h
    obtain ⟨hlen, hq⟩ := h
    rw [Bool.and_eq_true, beq_iff_eq, List.all_eq_true]
    refine ⟨hlen, fun x hx => ?_⟩
    obtain ⟨n, hn⟩ := List.mem_iff_get.mp hx
    have hmin : ↑n < min a.length v.length :=
      lt_of_lt_of_eq n.2 (List.length_zip a v)
    have hnc : ↑n < a.length := lt_of_lt_of_le hmin (min_le_left _ _)
    have hnv : ↑n < v.length := lt_of_lt_of_le hmin (min_le_right _ _)
    obtain ⟨q, hcq, hvq⟩ := hq n.1 hnc hnv
    rw [List.get_eq_getElem] at hcq hvq
    rw [← hn, List.get_eq_getElem, List.getElem_zip, hcq, hvq]
    simp [FVal.ieeeEq]

/-- For a cached copy, the change test fires exactly when the spec-side
elementwise comparison says the vectors differ. -/
theorem backgroundParametersChanged_iff (cp v : List FVal) :
    backgroundParametersChanged (some cp) v = true ↔
      ¬ SpecParametersUnchanged cp v := by
  simp only [backgroundParametersChanged, Bool.not_eq_true']
  rw [← parametersUnchanged_iff]
  exact Bool.eq_false_iff

/-- A parameter vector containing NaN never counts as unchanged, whatever the
cached copy holds. -/
theorem specUnchanged_nan (a v : List FVal) (h : v.any FVal.isNan = true) :
    ¬ SpecParametersUnchanged a v := by
  rintro ⟨hlen, hq⟩
  rw [List.any_eq_true] at h
  obtain ⟨x, hx, hnan⟩ := h
  obtain ⟨n, hn⟩ := List.mem_iff_get.mp hx
  obtain ⟨q, _, hvq⟩ := hq n.1 (by rw [hlen]; exact n.2) n.2
  have hvn : v.get n = FVal.val q := by simpa using hvq
  rw [← hn, hvn] at hnan
  simp [FVal.isNan] at hnan

/-- C4: with a background map and an attached `FoVBackgroundModel`,
`npred_background()` re-evaluates the scaled background iff the current
parameter vector differs from the cached copy under elementwise comparison
with NaN as a non-self-equal sentinel; in particular a vector containing NaN
always re-evaluates, even against an identical cached copy.  When it fires,
the returned map is the freshly scaled background and the cache is updated;
when it does not, the cached map is returned and the state is untouched. -/
theorem npred_background_cache_nan_sentinel (d : MapDataset)
    (bg : Cube) (m : FoVBackgroundModel) (cp : List FVal)
    (hbg : d.background = some bg) (hm : d.backgroundModel = some m)
    (hcp : d.backgroundParametersCached = some cp) :
    (d.npredBackgroundReevaluates = true ↔ ¬ SpecParametersUnchanged cp m.params) ∧
    (m.params.any FVal.isNan = true → d.npredBackgroundReevaluates = true) ∧
    (d.npredBackgroundReevaluates = true →
      d.npredBackground.1 = some (cubeMul bg (m.evaluateGeom m.params)) ∧
      d.npredBackground.2.backgroundParametersCached = some m.params) ∧
    (d.npredBackgroundReevaluates = false →
      d.npredBackground.1 = d.backgroundCached ∧ d.npredBackground.2 = d) := by
  have hch : d.npredBackgroundReevaluates =
      backgroundParametersChanged (some cp) m.params := by
    simp [MapDataset.npredBackgroundReevaluates, hbg, hm, hcp]
  refine ⟨?_, ?_, ?_, ?_⟩
  · rw [hch]; exact backgroundParametersChanged_iff cp m.params
  · intro hnan
    rw [hch, backgroundParametersChanged_iff]
    exact specUnchanged_nan cp m.params hnan
  · intro htrue
    rw [hch] at htrue
    constructor <;>
      simp [MapDataset.npredBackground, hbg, hm, hcp, htrue]
  · intro hfalse
    rw [hch] at hfalse
    constructor <;>
      simp [MapDataset.npredBackground, hbg, hm, hcp, hfalse]

/-- A dataset whose background-model parameters hold a NaN, cached copy
identical. -/
def nanParamsDataset : MapDataset :=
  { counts := some [[5]], exposure := none, livetime := none
    background := some [[2]], psf := none, edisp := none
    mask_safe := none, mask_fit := none
    evaluators := [], backgroundModel :=
      some { params := [FVal.nan, FVal.val 1], evaluateGeom := fun _ => [[1]] }
    backgroundParametersCached := some [FVal.nan, FVal.val 1]
    backgroundCached := some [[2]]
    stat_type := "cash" }

/-- Witness for C4 at a dataset whose parameter vector holds a NaN identical
to the cached copy: the change test must still fire. -/
theorem npred_background_cache_nan_sentinel_witness :
    nanParamsDataset.background = some [[2]] ∧
    nanParamsDataset.backgroundParametersCached = some [FVal.nan, FVal.val 1] ∧
    ([FVal.nan, FVal.val 1].any FVal.isNan = true) ∧
    ((nanParamsDataset.npredBackgroundReevaluates = true ↔
        ¬ SpecParametersUnchanged [FVal.nan, FVal.val 1]
          [FVal.nan, FVal.val 1]) ∧
      ([FVal.nan, FVal.val 1].any FVal.isNan = true →
        nanParamsDataset.npredBackgroundReevaluates = true) ∧
      (nanParamsDataset.npredBackgroundReevaluates = true →
        nanParamsDataset.npredBackground.1 = some (cubeMul [[2]] [[1]]) ∧
        nanParamsDataset.npredBackground.2.backgroundParametersCached =
          some [FVal.nan, FVal.val 1]) ∧
      (nanParamsDataset.npredBackgroundReevaluates = false →
        nanParamsDataset.npredBackground.1 = nanParamsDataset.backgroundCached ∧
        nanParamsDataset.npredBackground.2 = nanParamsDataset)) :=
  ⟨rfl, rfl, by decide,
    npred_background_cache_nan_sentinel nanParamsDataset [[2]]
      { params := [FVal.nan, FVal.val 1], evaluateGeom := fun _ => [[1]] }
      [FVal.nan, FVal.val 1] rfl rfl rfl⟩

/-- C6 counterexample: constructing a `MapDataset` with none of counts,
background, mask_fit or mask_safe does *not* raise — `__init__` returns the
dataset, and the `ValueError` only surfaces on the first use of the reference
geometry. -/
theorem mapDataset_init_without_geometry_succeeds :
    MapDataset.init none none none none none none none [] none none =
      Except.ok
        { counts := none, exposure := none, livetime := none, background := none
          psf := none, edisp := none, mask_safe := none, mask_fit := none
          evaluators := [], backgroundModel := none
          backgroundParametersCached := none, backgroundCached := none
          stat_type := "cash" } ∧
    ({ counts := none, exposure := none, livetime := none, background := none
       psf := none, edisp := none, mask_safe := none, mask_fit := none
       evaluators := [], backgroundModel := none
       backgroundParametersCached := none, backgroundCached := none
       stat_type := "cash" } : MapDataset).geom =
      Except.error
        "Either counts, background, mask_fit or mask_safe must be defined." :=
  ⟨rfl, rfl⟩

/-- C6 (amended): the constructor succeeds whenever psf/edisp have acceptable
types — also with none of the four geometry roles present — and the
`ValueError` is raised exactly at the first use of the reference geometry,
i.e. `_geom` errors iff all four roles are absent. -/
theorem mapDataset_geom_error_at_first_use (counts exposure background : Option Cube)
    (psf : Option PsfInput) (edisp : Option EDispInput)
    (mask_safe mask_fit : Option BCube) (evs : List (String × MapEvaluator))
    (bgm : Option FoVBackgroundModel) (lt : Option ℚ)
    (hpsf : psf = none ∨ psf = some PsfInput.psfMap ∨ psf = some PsfInput.hduLocation)
    (hed : edisp = none ∨ edisp = some EDispInput.edispMap ∨
      edisp = some EDispInput.edispKernelMap ∨ edisp = some EDispInput.hduLocation) :
    ∃ dd, MapDataset.init counts exposure background psf edisp mask_safe mask_fit
        evs bgm lt = Except.ok dd ∧
      ((∃ msg, dd.geom = Except.error msg) ↔
        (counts = none ∧ background = none ∧ mask_safe = none ∧ mask_fit = none)) := by
  have hinit : MapDataset.init counts exposure background psf edisp mask_safe mask_fit
      evs bgm lt = Except.ok
        { counts := counts, exposure := exposure, livetime := lt
          background := background, psf := psf, edisp := edisp
          mask_safe := mask_safe, mask_fit := mask_fit
          evaluators := evs, backgroundModel := bgm
          backgroundParametersCached := none, backgroundCached := none
          stat_type := "cash" } := by
    rcases hpsf with rfl | rfl | rfl <;> rcases hed with rfl | rfl | rfl | rfl <;> rfl
  refine ⟨_, hinit, ?_⟩
  rcases hc : counts with _ | cv <;> rcases hb : background with _ | bv <;>
    rcases hms : mask_safe with _ | msv <;> rcases hmf : mask_fit with _ | mfv <;>
      simp [MapDataset.geom, pure, Except.pure, throw, throwThe, MonadExceptOf.throw]

/-- Witness for the amended C6 at the all-`None` construction. -/
theorem mapDataset_geom_error_at_first_use_witness :
    ((none : Option PsfInput) = none ∨ (none : Option PsfInput) = some PsfInput.psfMap ∨
      (none : Option PsfInput) = some PsfInput.hduLocation) ∧
    (∃ dd, MapDataset.init none none none none none none none [] none none =
        Except.ok dd ∧
      ((∃ msg, dd.geom = Except.error msg) ↔
        ((none : Option Cube) = none ∧ (none : Option Cube) = none ∧
          (none : Option BCube) = none ∧ (none : Option BCube) = none))) :=
  ⟨Or.inl rfl,
    mapDataset_geom_error_at_first_use none none none none none none none [] none none
      (Or.inl rfl) (Or.inl rfl)⟩

/-- Folding a list whose elements all leave the accumulator unchanged is the
identity. -/
theorem foldl_fixed {α β : Type} (f : β → α → β) (l : List α) (init : β)
    (h : ∀ x ∈ l, ∀ acc, f acc x = acc) : l.foldl f init = init := by
  induction l generalizing init with
  | nil => rfl
  | cons x xs ih =>
      rw [List.foldl_cons, h x (List.mem_cons_self x xs)]
      exact ih init (fun y hy acc => h y (List.mem_cons_of_mem x hy) acc)

/-- C10: when no attached model evaluator contributes (in particular when the
dataset has no evaluators at all), `npred_signal` returns the all-zero float
map on the reference geometry for both `stack=True` and `stack=False`, and
the result carries no "models" label axis. -/
theorem npred_signal_no_contribution (d : MapDataset) (g : Cube) (stack : Bool)
    (hg : d.geom = Except.ok g)
    (h : ∀ ev ∈ d.evaluators, ev.2.contributes = false) :
    (d.npredSignal g stack).data = g.map (fun p => p.map (fun _ => (0 : ℚ))) ∧
    (d.npredSignal g stack).hasModelsAxis = false ∧
    (d.npredSignal g stack).perModel = [] := by
  have hfold :
      d.evaluators.foldl
        (fun (acc : Cube × List (String × Cube)) (ev : String × MapEvaluator) =>
          if ev.2.contributes then
            if stack then
              (cubeStack acc.1 ev.2.npredData none true, acc.2)
            else
              (acc.1, acc.2 ++
                [(ev.1, cubeStack (g.map (fun p => p.map (fun _ => (0 : ℚ))))
                  ev.2.npredData none true)])
          else acc)
        (g.map (fun p => p.map (fun _ => (0 : ℚ))), []) =
        (g.map (fun p => p.map (fun _ => (0 : ℚ))), []) := by
    apply foldl_fixed
    intro ev hev acc
    rw [h ev hev]
    rfl
  refine ⟨?_, ?_, ?_⟩ <;>
    (simp only [MapDataset.npredSignal]; rw [hfold]; simp)

/-- A dataset with a single evaluator that does not contribute. -/
def noContributionDataset : MapDataset :=
  { counts := some [[0, 0], [0, 0]], exposure := none, livetime := none
    background := none, psf := none, edisp := none
    mask_safe := none, mask_fit := none
    evaluators := [("outside-model", { contributes := false, npredData := [[7, 7], [7, 7]] })]
    backgroundModel := none
    backgroundParametersCached := none, backgroundCached := none
    stat_type := "cash" }

/-- Witness for C10 at `noContributionDataset`, for both stack modes. -/
theorem npred_signal_no_contribution_witness :
    noContributionDataset.geom = Except.ok [[0, 0], [0, 0]] ∧
    (∀ ev ∈ noContributionDataset.evaluators, ev.2.contributes = false) ∧
    ((noContributionDataset.npredSignal [[0, 0], [0, 0]] false).data =
        ([[0, 0], [0, 0]] : Cube).map (fun p => p.map (fun _ => (0 : ℚ))) ∧
      (noContributionDataset.npredSignal [[0, 0], [0, 0]] false).hasModelsAxis = false ∧
      (noContributionDataset.npredSignal [[0, 0], [0, 0]] false).perModel = []) ∧
    ((noContributionDataset.npredSignal [[0, 0], [0, 0]] true).data =
        ([[0, 0], [0, 0]] : Cube).map (fun p => p.map (fun _ => (0 : ℚ))) ∧
      (noContributionDataset.npredSignal [[0, 0], [0, 0]] true).hasModelsAxis = false ∧
      (noContributionDataset.npredSignal [[0, 0], [0, 0]] true).perModel = []) :=
  ⟨rfl, by decide,
    npred_signal_no_contribution noContributionDataset [[0, 0], [0, 0]] false rfl
      (by decide),
    npred_signal_no_contribution noContributionDataset [[0, 0], [0, 0]] true rfl
      (by decide)⟩

/-- Pointwise value of an unweighted plane stack. -/
theorem imgStack_none_getD (n2n : Bool) :
    ∀ (s o : Image) (i : Nat), i < s.length → o.length = s.length →
      (imgStack s o none n2n).getD i 0 = s.getD i 0 + o.getD i 0 := by
  intro s
  induction s with
  | nil => intro o i hi _; exact absurd hi (by simp)
  | cons sh st ih =>
      intro o i hi ho
      cases o with
      | nil => exact absurd ho (by simp)
      | cons oh ot =>
          cases i with
          | zero => simp [imgStack, nanToNumQ]
          | succ j =>
              have hj : j < st.length := by simpa [Nat.succ_lt_succ_iff] using hi
              have ho' : ot.length = st.length := by simpa using ho
              simpa [imgStack, nanToNumQ] using ih ot j hj ho'

/-- Plane extraction from an unweighted cube stack. -/
theorem cubeStack_none_getD (n2n : Bool) :
    ∀ (s o : Cube) (p : Nat), p < s.length → o.length = s.length →
      (cubeStack s o none n2n).getD p [] =
        imgStack (s.getD p []) (o.getD p []) none n2n := by
  intro s
  induction s with
  | nil => intro o p hp _; exact absurd hp (by simp)
  | cons sh st ih =>
      intro o p hp ho
      cases o with
      | nil => exact absurd ho (by simp)
      | cons oh ot =>
          cases p with
          | zero => simp [cubeStack]
          | succ q =>
              have hq : q < st.length := by simpa [Nat.succ_lt_succ_iff] using hp
              have ho' : ot.length = st.length := by simpa using ho
              simpa [cubeStack] using ih ot q hq ho'

/-- Pointwise value of a binary `zipWith` under `getD`, inside the common
range. -/
theorem zipWith_getD_of_lt {α β γ : Type} (f : α → β → γ) (da : α) (db : β)
    (dc : γ) :
    ∀ (a : List α) (b : List β) (i : Nat), i < a.length → i < b.length →
      (List.zipWith f a b).getD i dc = f (a.getD i da) (b.getD i db) := by
  intro a
  induction a with
  | nil => intro b i hi _; exact absurd hi (by simp)
  | cons ah at2 ih =>
      intro b i hi hb
      cases b with
      | nil => exact absurd hb (by simp)
      | cons bh bt =>
          cases i with
          | zero => simp
          | succ j =>
              have hj : j < at2.length := by simpa [Nat.succ_lt_succ_iff] using hi
              have hb' : j < bt.length := by simpa [Nat.succ_lt_succ_iff] using hb
              simpa using ih bt j hj hb'

/-- Pointwise value of a ternary plane map under `getD`. -/
theorem imgZip3_getD (f : ℚ → ℚ → ℚ → ℚ) :
    ∀ (a b cl : Image) (i : Nat), i < a.length → i < b.length → i < cl.length →
      (imgZip3 f a b cl).getD i 0 =
        f (a.getD i 0) (b.getD i 0) (cl.getD i 0) := by
  intro a
  induction a with
  | nil => intro b cl i hi _ _; exact absurd hi (by simp)
  | cons ah at2 ih =>
      intro b cl i hi hb hc
      cases b with
      | nil => exact absurd hb (by simp)
      | cons bh bt =>
          cases cl with
          | nil => exact absurd hc (by simp)
          | cons ch ct =>
              cases i with
              | zero => simp [imgZip3]
              | succ j =>
                  have hj : j < at2.length := by simpa [Nat.succ_lt_succ_iff] using hi
                  have hb' : j < bt.length := by simpa [Nat.succ_lt_succ_iff] using hb
                  have hc' : j < ct.length := by simpa [Nat.succ_lt_succ_iff] using hc
                  simpa [imgZip3] using ih bt ct j hj hb' hc'

/-- Plane extraction from a ternary cube map. -/
theorem cubeZip3_getD (f : ℚ → ℚ → ℚ → ℚ) :
    ∀ (a b cl : Cube) (p : Nat), p < a.length → p < b.length → p < cl.length →
      (cubeZip3 f a b cl).getD p [] =
        imgZip3 f (a.getD p []) (b.getD p []) (cl.getD p []) := by
  intro a
  induction a with
  | nil => intro b cl p hp _ _; exact absurd hp (by simp)
  | cons ah at2 ih =>
      intro b cl p hp hb hc
      cases b with
      | nil => exact absurd hb (by simp)
      | cons bh bt =>
          cases cl with
          | nil => exact absurd hc (by simp)
          | cons ch ct =>
              cases p with
              | zero => simp [cubeZip3]
              | succ q =>
                  have hq : q < at2.length := by simpa [Nat.succ_lt_succ_iff] using hp
                  have hb' : q < bt.length := by simpa [Nat.succ_lt_succ_iff] using hb
                  have hc' : q < ct.length := by simpa [Nat.succ_lt_succ_iff] using hc
                  simpa [cubeZip3] using ih bt ct q hq hb' hc'

/-- Every bin of the zero map built from a reference geometry is 0. -/
theorem zeroOf_getD (g : Cube) (p i : Nat) :
    ((g.map (fun pl => pl.map (fun _ => (0 : ℚ)))).getD p []).getD i 0 = 0 := by
  induction g generalizing p with
  | nil => simp [List.getD]
  | cons gh gt ih =>
      cases p with
      | zero =>
          simp only [List.map_cons, List.getD_cons_zero]
          induction gh generalizing i with
          | nil => simp [List.getD]
          | cons xh xt ih2 =>
              cases i with
              | zero => simp
              | succ j => simpa using ih2 j
      | succ q => simpa using ih q

/-- `getD` commutes with `map` when the default is the image of a default. -/
theorem getD_map {α β : Type} (f : α → β) (d : α) :
    ∀ (l : List α) (i : Nat), (l.map f).getD i (f d) = f (l.getD i d) := by
  intro l
  induction l with
  | nil => intro i; simp [List.getD]
  | cons x xs ih =>
      intro i
      cases i with
      | zero => simp
      | succ j => simpa using ih j

/-- Summing a list by indexing over its range recovers the list sum. -/
theorem range_getD_sum : ∀ (l : List ℚ),
    ((List.range l.length).map (fun i => l.getD i 0)).sum = l.sum := by
  intro l
  induction l with
  | nil => simp
  | cons x xs ih =>
      rw [List.length_cons, List.range_succ_eq_map, List.map_cons, List.map_map]
      simp only [List.sum_cons, List.getD_cons_zero]
      have hcomp : ((fun i => (x :: xs).getD i 0) ∘ Nat.succ) =
          fun i => xs.getD i 0 :=
        funext (fun i => List.getD_cons_succ)
      rw [hcomp, ih]

/-- Sum of a rectangular grid of bin values, the claim-side reading of
`Map.data.sum()`. -/
def gridSum (f : Nat → Nat → ℚ) (nE nPix : Nat) : ℚ :=
  ((List.range nE).map (fun p => ((List.range nPix).map (f p)).sum)).sum

/-- A cube's total is the grid sum of its bins. -/
theorem cubeSum_eq_gridSum (cu : Cube) (nE nPix : Nat)
    (hlen : cu.length = nE) (hpl : ∀ p, p < nE → (cu.getD p []).length = nPix) :
    cubeSum cu = gridSum (fun p i => (cu.getD p []).getD i 0) nE nPix := by
  subst hlen
  unfold cubeSum gridSum
  have h1 : ∀ p, p < cu.length →
      ((List.range nPix).map (fun i => (cu.getD p []).getD i 0)).sum =
        (cu.getD p []).sum := by
    intro p hp
    rw [← hpl p hp]
    exact range_getD_sum (cu.getD p [])
  rw [← range_getD_sum (cu.map List.sum)]
  rw [List.length_map]
  apply congrArg List.sum
  apply List.map_congr_left
  intro p hp
  rw [List.mem_range] at hp
  have hx : (cu.map List.sum).getD p 0 = (cu.getD p []).sum :=
    getD_map List.sum [] cu p
  rw [hx, h1 p hp]

/-- Grid sums only depend on the bin values inside the grid. -/
theorem gridSum_congr (f g : Nat → Nat → ℚ) (nE nPix : Nat)
    (h : ∀ p, p < nE → ∀ i, i < nPix → f p i = g p i) :
    gridSum f nE nPix = gridSum g nE nPix := by
  unfold gridSum
  apply congrArg List.sum
  apply List.map_congr_left
  intro p hp
  rw [List.mem_range] at hp
  apply congrArg List.sum
  apply List.map_congr_left
  intro i hi
  rw [List.mem_range] at hi
  exact h p hp i hi

/-- Length of an unweighted plane stack. -/
theorem imgStack_none_length (s o : Image) (n2n : Bool) :
    (imgStack s o none n2n).length = min s.length o.length := by
  simp [imgStack]

/-- Length of a mask-weighted plane stack. -/
theorem imgStack_some_length (s o : Image) (m : BImage) (n2n : Bool) :
    (imgStack s o (some m) n2n).length = min s.length (min o.length m.length) := by
  simp [imgStack, List.length_zip]

/-- Length of an unweighted cube stack. -/
theorem cubeStack_none_length (s o : Cube) (n2n : Bool) :
    (cubeStack s o none n2n).length = min s.length o.length := by
  simp [cubeStack]

/-- Length of a mask-weighted cube stack. -/
theorem cubeStack_some_length (s o : Cube) (mw : BCube) (n2n : Bool) :
    (cubeStack s o (some mw) n2n).length = min s.length (min o.length mw.length) := by
  simp [cubeStack, List.length_zip]

/-- The self plus other-masked accumulation of one bin: the spec-side reading
of the `total_off`, `total_alpha_weighted` and `total_acceptance` sums. -/
def maskedSumBin (s o : Cube) (m : BCube) (p i : Nat) : ℚ :=
  (s.getD p []).getD i 0 +
    (if (m.getD p []).getD i false then (o.getD p []).getD i 0 else 0)

/-- Bin value of a nested `zipWith` of cubes. -/
theorem cube2_getD_bin (f : ℚ → ℚ → ℚ) (a b : Cube) (nE nPix : Nat)
    (hal : a.length = nE) (hap : ∀ p, p < nE → (a.getD p []).length = nPix)
    (hbl : b.length = nE) (hbp : ∀ p, p < nE → (b.getD p []).length = nPix)
    (p i : Nat) (hp : p < nE) (hi : i < nPix) :
    ((List.zipWith (List.zipWith f) a b).getD p []).getD i 0 =
      f ((a.getD p []).getD i 0) ((b.getD p []).getD i 0) := by
  have h1 : (List.zipWith (List.zipWith f) a b).getD p [] =
      List.zipWith f (a.getD p []) (b.getD p []) :=
    zipWith_getD_of_lt (List.zipWith f) [] [] [] a b p (by omega) (by omega)
  rw [h1]
  exact zipWith_getD_of_lt f 0 0 0 _ _ i (by rw [hap p hp]; omega)
    (by rw [hbp p hp]; omega)

/-- Plane lengths of a nested `zipWith` of cubes. -/
theorem cube2_lengths (f : ℚ → ℚ → ℚ) (a b : Cube) (nE nPix : Nat)
    (hal : a.length = nE) (hap : ∀ p, p < nE → (a.getD p []).length = nPix)
    (hbl : b.length = nE) (hbp : ∀ p, p < nE → (b.getD p []).length = nPix) :
    (List.zipWith (List.zipWith f) a b).length = nE ∧
      ∀ p, p < nE → ((List.zipWith (List.zipWith f) a b).getD p []).length = nPix := by
  constructor
  · rw [List.length_zipWith, hal, hbl, min_self]
  · intro p hp
    have h1 : (List.zipWith (List.zipWith f) a b).getD p [] =
        List.zipWith f (a.getD p []) (b.getD p []) :=
      zipWith_getD_of_lt (List.zipWith f) [] [] [] a b p (by omega) (by omega)
    rw [h1, List.length_zipWith, hap p hp, hbp p hp, min_self]

/-- Lengths through the zero-seeded two-step stack chain of
`MapDatasetOnOff.stack`. -/
theorem stackChain_lengths (n2n : Bool) (g a b : Cube) (mo : BCube)
    (nE nPix : Nat)
    (hgl : g.length = nE) (hgp : ∀ p, p < nE → (g.getD p []).length = nPix)
    (hal : a.length = nE) (hap : ∀ p, p < nE → (a.getD p []).length = nPix)
    (hbl : b.length = nE) (hbp : ∀ p, p < nE → (b.getD p []).length = nPix)
    (hml : mo.length = nE) (hmp : ∀ p, p < nE → (mo.getD p []).length = nPix) :
    (cubeStack (cubeStack (g.map (fun pl => pl.map (fun _ => (0 : ℚ)))) a none n2n)
        b (some mo) n2n).length = nE ∧
      ∀ p, p < nE →
        ((cubeStack (cubeStack (g.map (fun pl => pl.map (fun _ => (0 : ℚ)))) a
            none n2n) b (some mo) n2n).getD p []).length = nPix := by
  have hzl : (g.map (fun pl => pl.map (fun _ => (0 : ℚ)))).length = nE := by
    rw [List.length_map, hgl]
  have hzp : ∀ p, p < nE →
      ((g.map (fun pl => pl.map (fun _ => (0 : ℚ)))).getD p []).length = nPix := by
    intro p hp
    have := getD_map (fun pl : Image => pl.map (fun _ => (0 : ℚ))) [] g p
    simp only [List.map_nil] at this
    rw [this, List.length_map, hgp p hp]
  have hil : (cubeStack (g.map (fun pl => pl.map (fun _ => (0 : ℚ)))) a none
      n2n).length = nE := by
    rw [cubeStack_none_length, hzl, hal, min_self]
  have hip : ∀ p, p < nE →
      ((cubeStack (g.map (fun pl => pl.map (fun _ => (0 : ℚ)))) a none
        n2n).getD p []).length = nPix := by
    intro p hp
    rw [cubeStack_none_getD n2n _ a p (by omega) (by omega)]
    rw [imgStack_none_length, hzp p hp, hap p hp, min_self]
  constructor
  · rw [cubeStack_some_length, hil, hbl, hml, min_self, min_self]
  · intro p hp
    rw [cubeStack_some_getD n2n _ b mo p (by omega) (by omega) (by omega)]
    rw [imgStack_some_length, hip p hp, hbp p hp, hmp p hp, min_self, min_self]

/-- Bin values through the zero-seeded two-step stack chain: the self
contribution unmasked plus the other contribution weighted by its safe
mask. -/
theorem stackChain_getD_bin (n2n : Bool) (g a b : Cube) (mo : BCube)
    (nE nPix : Nat)
    (hgl : g.length = nE) (hgp : ∀ p, p < nE → (g.getD p []).length = nPix)
    (hal : a.length = nE) (hap : ∀ p, p < nE → (a.getD p []).length = nPix)
    (hbl : b.length = nE) (hbp : ∀ p, p < nE → (b.getD p []).length = nPix)
    (hml : mo.length = nE) (hmp : ∀ p, p < nE → (mo.getD p []).length = nPix)
    (p i : Nat) (hp : p < nE) (hi : i < nPix) :
    ((cubeStack (cubeStack (g.map (fun pl => pl.map (fun _ => (0 : ℚ)))) a
        none n2n) b (some mo) n2n).getD p []).getD i 0 =
      maskedSumBin a b mo p i := by
  have hzl : (g.map (fun pl => pl.map (fun _ => (0 : ℚ)))).length = nE := by
    rw [List.length_map, hgl]
  have hzgetD : ∀ q, (g.map (fun pl => pl.map (fun _ => (0 : ℚ)))).getD q [] =
      (g.getD q []).map (fun _ => (0 : ℚ)) := by
    intro q
    have := getD_map (fun pl : Image => pl.map (fun _ => (0 : ℚ))) [] g q
    simpa using this
  have hzp : ∀ q, q < nE →
      ((g.map (fun pl => pl.map (fun _ => (0 : ℚ)))).getD q []).length = nPix := by
    intro q hq
    rw [hzgetD q, List.length_map, hgp q hq]
  have hil : (cubeStack (g.map (fun pl => pl.map (fun _ => (0 : ℚ)))) a none
      n2n).length = nE := by
    rw [cubeStack_none_length, hzl, hal, min_self]
  have hinner : (cubeStack (g.map (fun pl => pl.map (fun _ => (0 : ℚ)))) a none
      n2n).getD p [] =
      imgStack ((g.map (fun pl => pl.map (fun _ => (0 : ℚ)))).getD p [])
        (a.getD p []) none n2n :=
    cubeStack_none_getD n2n _ a p (by omega) (by omega)
  have hipl : ((cubeStack (g.map (fun pl => pl.map (fun _ => (0 : ℚ)))) a none
      n2n).getD p []).length = nPix := by
    rw [hinner, imgStack_none_length, hzp p hp, hap p hp, min_self]
  have houter : (cubeStack (cubeStack (g.map (fun pl => pl.map (fun _ => (0 : ℚ))))
      a none n2n) b (some mo) n2n).getD p [] =
      imgStack ((cubeStack (g.map (fun pl => pl.map (fun _ => (0 : ℚ)))) a none
        n2n).getD p []) (b.getD p []) (some (mo.getD p [])) n2n :=
    cubeStack_some_getD n2n _ b mo p (by omega) (by omega) (by omega)
  rw [houter]
  rw [imgStack_some_getD n2n _ _ _ i (by omega) (by rw [hbp p hp, hipl])
    (by rw [hmp p hp, hipl])]
  rw [hinner]
  rw [imgStack_none_getD n2n _ _ i (by rw [hzp p hp]; omega)
    (by rw [hap p hp, hzp p hp])]
  rw [show ((g.map (fun pl => pl.map (fun _ => (0 : ℚ)))).getD p []).getD i 0 = 0
    from zeroOf_getD g p i]
  unfold maskedSumBin
  ring

set_option maxHeartbeats 2000000 in
/-- C3: for stackable on/off datasets with full on/off information,
`MapDatasetOnOff.stack` recomputes `acceptance_off` as
`total_acceptance * total_off / total_alpha_weighted` — `total_off` the
other-masked sum of the off counts, `total_alpha_weighted` the other-masked
sum of `alpha * counts_off`, `total_acceptance` the sum of acceptances with
only the other dataset weighted by its safe mask — and, in every bin where
`total_off` is 0, as `total_acceptance / average_alpha` with
`average_alpha = total_alpha_weighted.sum() / total_off.sum()`. -/
theorem onoff_stack_acceptance_off (self other : MapDatasetOnOff) (n2n : Bool)
    (nE nPix : Nat)
    (sc sOff sAcc sAccOff oOff oAcc oAccOff : Cube) (mo : BCube)
    (hsc : self.counts = some sc)
    (hsOff : self.counts_off = some sOff)
    (hsAcc : self.acceptance = some sAcc)
    (hsAccOff : self.acceptance_off = some sAccOff)
    (hoOff : other.counts_off = some oOff)
    (hoAcc : other.acceptance = some oAcc)
    (hoAccOff : other.acceptance_off = some oAccOff)
    (hmo : other.mask_safe = some mo)
    (hshc : cubeShape sc nE nPix = true)
    (hsh1 : cubeShape sOff nE nPix = true)
    (hsh2 : cubeShape sAcc nE nPix = true)
    (hsh3 : cubeShape sAccOff nE nPix = true)
    (hsh4 : cubeShape oOff nE nPix = true)
    (hsh5 : cubeShape oAcc nE nPix = true)
    (hsh6 : cubeShape oAccOff nE nPix = true)
    (hshm : bcubeShape mo nE nPix = true) :
    ∃ res accOffNew, self.stackWith other n2n = Except.ok res ∧
      res.acceptance_off = some accOffNew ∧
      ∀ p : Nat, p < nE → ∀ i : Nat, i < nPix →
        (accOffNew.getD p []).getD i 0 =
          (if maskedSumBin sOff oOff mo p i = 0 then
            qdiv (maskedSumBin sAcc oAcc mo p i)
              (qdiv
                (gridSum (fun q j => maskedSumBin
                  (cubeMul (MapDatasetOnOff.alpha sAcc sAccOff) sOff)
                  (cubeMul (MapDatasetOnOff.alpha oAcc oAccOff) oOff) mo q j)
                  nE nPix)
                (gridSum (fun q j => maskedSumBin sOff oOff mo q j) nE nPix))
          else
            qdiv (maskedSumBin sAcc oAcc mo p i * maskedSumBin sOff oOff mo p i)
              (maskedSumBin (cubeMul (MapDatasetOnOff.alpha sAcc sAccOff) sOff)
                (cubeMul (MapDatasetOnOff.alpha oAcc oAccOff) oOff) mo p i)) := by
  -- base lengths from the shape hypotheses
  have SC := allShape_getD_length sc nE nPix (by simpa [cubeShape] using hshc)
  have S1 := allShape_getD_length sOff nE nPix (by simpa [cubeShape] using hsh1)
  have S2 := allShape_getD_length sAcc nE nPix (by simpa [cubeShape] using hsh2)
  have S3 := allShape_getD_length sAccOff nE nPix (by simpa [cubeShape] using hsh3)
  have S4 := allShape_getD_length oOff nE nPix (by simpa [cubeShape] using hsh4)
  have S5 := allShape_getD_length oAcc nE nPix (by simpa [cubeShape] using hsh5)
  have S6 := allShape_getD_length oAccOff nE nPix (by simpa [cubeShape] using hsh6)
  have SM := allShape_getD_length mo nE nPix (by simpa [bcubeShape] using hshm)
  have pl : ∀ (X : Cube), (∀ q : Nat, (X.getD q []).length =
      if q < nE then nPix else 0) → ∀ q, q < nE → (X.getD q []).length = nPix := by
    intro X hX q hq
    rw [hX q, if_pos hq]
  have plb : ∀ (X : BCube), (∀ q : Nat, (X.getD q []).length =
      if q < nE then nPix else 0) → ∀ q, q < nE → (X.getD q []).length = nPix := by
    intro X hX q hq
    rw [hX q, if_pos hq]
  -- the stackability guards hold
  have hst1 : self.isStackable = true := by
    simp [MapDatasetOnOff.isStackable, hsOff, hsAcc, hsAccOff]
  have hst2 : other.isStackable = true := by
    simp [MapDatasetOnOff.isStackable, hoOff, hoAcc, hoAccOff]
  have hrun : self.stackWith other n2n = Except.ok
      (MapDatasetOnOff.stackSuper
        { self with
          acceptance := some (cubeStack (cubeStack
            (sc.map (fun pl2 => pl2.map (fun _ => (0 : ℚ)))) sAcc none n2n)
            oAcc (some mo) n2n)
          acceptance_off := some (cubeZip3
            (fun acc off al => if off = 0 then
              qdiv acc (qdiv
                (cubeSum (cubeStack (cubeStack
                  (sc.map (fun pl2 => pl2.map (fun _ => (0 : ℚ))))
                  (cubeMul (MapDatasetOnOff.alpha sAcc sAccOff) sOff) none n2n)
                  (cubeMul (MapDatasetOnOff.alpha oAcc oAccOff) oOff) (some mo) n2n))
                (cubeSum (cubeStack (cubeStack
                  (sc.map (fun pl2 => pl2.map (fun _ => (0 : ℚ)))) sOff none n2n)
                  oOff (some mo) n2n)))
              else qdiv (acc * off) al)
            (cubeStack (cubeStack (sc.map (fun pl2 => pl2.map (fun _ => (0 : ℚ))))
              sAcc none n2n) oAcc (some mo) n2n)
            (cubeStack (cubeStack (sc.map (fun pl2 => pl2.map (fun _ => (0 : ℚ))))
              sOff none n2n) oOff (some mo) n2n)
            (cubeStack (cubeStack (sc.map (fun pl2 => pl2.map (fun _ => (0 : ℚ))))
              (cubeMul (MapDatasetOnOff.alpha sAcc sAccOff) sOff) none n2n)
              (cubeMul (MapDatasetOnOff.alpha oAcc oAccOff) oOff) (some mo) n2n))
          counts_off := some (cubeStack (cubeStack
            (sc.map (fun pl2 => pl2.map (fun _ => (0 : ℚ)))) sOff none n2n)
            oOff (some mo) n2n) }
        other n2n) := by
    unfold MapDatasetOnOff.stackWith
    rw [hst1, hst2, hsc, hsAcc, hoAcc, hsOff, hsAccOff, hoOff, hoAccOff, hmo]
    rfl
  refine ⟨_, _, hrun, rfl, ?_⟩
  intro p hp i hi
  -- lengths of the alpha-weighted products
  have A1 := cube2_lengths nanToNumDiv sAcc sAccOff nE nPix S2.1 (pl _ S2.2)
    S3.1 (pl _ S3.2)
  have A2 := cube2_lengths nanToNumDiv oAcc oAccOff nE nPix S5.1 (pl _ S5.2)
    S6.1 (pl _ S6.2)
  have M1 := cube2_lengths (· * ·)
    (MapDatasetOnOff.alpha sAcc sAccOff) sOff nE nPix A1.1 A1.2 S1.1 (pl _ S1.2)
  have M2 := cube2_lengths (· * ·)
    (MapDatasetOnOff.alpha oAcc oAccOff) oOff nE nPix A2.1 A2.2 S4.1 (pl _ S4.2)
  -- the three accumulated total cubes, pointwise
  have hAccBin := stackChain_getD_bin n2n sc sAcc oAcc mo nE nPix SC.1 (pl _ SC.2)
    S2.1 (pl _ S2.2) S5.1 (pl _ S5.2) SM.1 (plb _ SM.2) p i hp hi
  have hOffBin := stackChain_getD_bin n2n sc sOff oOff mo nE nPix SC.1 (pl _ SC.2)
    S1.1 (pl _ S1.2) S4.1 (pl _ S4.2) SM.1 (plb _ SM.2) p i hp hi
  have hAlBin := stackChain_getD_bin n2n sc
    (cubeMul (MapDatasetOnOff.alpha sAcc sAccOff) sOff)
    (cubeMul (MapDatasetOnOff.alpha oAcc oAccOff) oOff) mo nE nPix
    SC.1 (pl _ SC.2) M1.1 M1.2 M2.1 M2.2 SM.1 (plb _ SM.2) p i hp hi
  have LAcc := stackChain_lengths n2n sc sAcc oAcc mo nE nPix SC.1 (pl _ SC.2)
    S2.1 (pl _ S2.2) S5.1 (pl _ S5.2) SM.1 (plb _ SM.2)
  have LOff := stackChain_lengths n2n sc sOff oOff mo nE nPix SC.1 (pl _ SC.2)
    S1.1 (pl _ S1.2) S4.1 (pl _ S4.2) SM.1 (plb _ SM.2)
  have LAl := stackChain_lengths n2n sc
    (cubeMul (MapDatasetOnOff.alpha sAcc sAccOff) sOff)
    (cubeMul (MapDatasetOnOff.alpha oAcc oAccOff) oOff) mo nE nPix
    SC.1 (pl _ SC.2) M1.1 M1.2 M2.1 M2.2 SM.1 (plb _ SM.2)
  -- the sums over the accumulated cubes are the grid sums of the bins
  have hSumOff := cubeSum_eq_gridSum _ nE nPix LOff.1 LOff.2
  have hSumAl := cubeSum_eq_gridSum _ nE nPix LAl.1 LAl.2
  -- evaluate the result bin
  rw [cubeZip3_getD _ _ _ _ p (by rw [LAcc.1]; exact hp)
    (by rw [LOff.1]; exact hp) (by rw [LAl.1]; exact hp)]
  rw [imgZip3_getD _ _ _ _ i (by rw [LAcc.2 p hp]; exact hi)
    (by rw [LOff.2 p hp]; exact hi) (by rw [LAl.2 p hp]; exact hi)]
  rw [hAccBin, hOffBin, hAlBin, hSumOff, hSumAl]
  have hgs1 : gridSum (fun q j =>
      ((cubeStack (cubeStack (sc.map (fun pl2 => pl2.map (fun _ => (0 : ℚ))))
        (cubeMul (MapDatasetOnOff.alpha sAcc sAccOff) sOff) none n2n)
        (cubeMul (MapDatasetOnOff.alpha oAcc oAccOff) oOff) (some mo)
        n2n).getD q []).getD j 0) nE nPix =
      gridSum (fun q j => maskedSumBin
        (cubeMul (MapDatasetOnOff.alpha sAcc sAccOff) sOff)
        (cubeMul (MapDatasetOnOff.alpha oAcc oAccOff) oOff) mo q j) nE nPix := by
    apply gridSum_congr
    intro q hq j hj
    exact stackChain_getD_bin n2n sc _ _ mo nE nPix SC.1 (pl _ SC.2)
      M1.1 M1.2 M2.1 M2.2 SM.1 (plb _ SM.2) q j hq hj
  have hgs2 : gridSum (fun q j =>
      ((cubeStack (cubeStack (sc.map (fun pl2 => pl2.map (fun _ => (0 : ℚ))))
        sOff none n2n) oOff (some mo) n2n).getD q []).getD j 0) nE nPix =
      gridSum (fun q j => maskedSumBin sOff oOff mo q j) nE nPix := by
    apply gridSum_congr
    intro q hq j hj
    exact stackChain_getD_bin n2n sc sOff oOff mo nE nPix SC.1 (pl _ SC.2)
      S1.1 (pl _ S1.2) S4.1 (pl _ S4.2) SM.1 (plb _ SM.2) q j hq hj
  rw [hgs1, hgs2]

/-- A concrete cumulative on/off dataset. -/
def onOffSelfDataset : MapDatasetOnOff :=
  { counts := some [[1, 1]], counts_off := some [[2, 0]]
    acceptance := some [[1, 1]], acceptance_off := some [[2, 1]]
    exposure := none, livetime := none
    mask_safe := some [[true, true]], mask_fit := none
    stat_type := "wstat" }

/-- A concrete per-observation on/off dataset with a mixed safe mask. -/
def onOffOtherDataset : MapDatasetOnOff :=
  { counts := some [[3, 1]], counts_off := some [[4, 0]]
    acceptance := some [[2, 1]], acceptance_off := some [[4, 1]]
    exposure := none, livetime := none
    mask_safe := some [[true, false]], mask_fit := none
    stat_type := "wstat" }

/-- Witness for C3 at the concrete on/off dataset pair (one bin with zero
stacked off counts, one without). -/
theorem onoff_stack_acceptance_off_witness :
    onOffSelfDataset.counts_off = some [[2, 0]] ∧
    onOffOtherDataset.mask_safe = some [[true, false]] ∧
    cubeShape [[2, 0]] 1 2 = true ∧
    bcubeShape [[true, false]] 1 2 = true ∧
    (∃ res accOffNew,
      onOffSelfDataset.stackWith onOffOtherDataset true = Except.ok res ∧
      res.acceptance_off = some accOffNew ∧
      ∀ p : Nat, p < 1 → ∀ i : Nat, i < 2 →
        (accOffNew.getD p []).getD i 0 =
          (if maskedSumBin [[2, 0]] [[4, 0]] [[true, false]] p i = 0 then
            qdiv (maskedSumBin [[1, 1]] [[2, 1]] [[true, false]] p i)
              (qdiv
                (gridSum (fun q j => maskedSumBin
                  (cubeMul (MapDatasetOnOff.alpha [[1, 1]] [[2, 1]]) [[2, 0]])
                  (cubeMul (MapDatasetOnOff.alpha [[2, 1]] [[4, 1]]) [[4, 0]])
                  [[true, false]] q j) 1 2)
                (gridSum (fun q j =>
                  maskedSumBin [[2, 0]] [[4, 0]] [[true, false]] q j) 1 2))
          else
            qdiv (maskedSumBin [[1, 1]] [[2, 1]] [[true, false]] p i *
                maskedSumBin [[2, 0]] [[4, 0]] [[true, false]] p i)
              (maskedSumBin
                (cubeMul (MapDatasetOnOff.alpha [[1, 1]] [[2, 1]]) [[2, 0]])
                (cubeMul (MapDatasetOnOff.alpha [[2, 1]] [[4, 1]]) [[4, 0]])
                [[true, false]] p i))) :=
  ⟨rfl, rfl, by decide, by decide,
    onoff_stack_acceptance_off onOffSelfDataset onOffOtherDataset true 1 2
      [[1, 1]] [[2, 0]] [[1, 1]] [[2, 1]] [[4, 0]] [[2, 1]] [[4, 1]] [[true, false]]
      rfl rfl rfl rfl rfl rfl rfl rfl
      (by decide) (by decide) (by decide) (by decide) (by decide) (by decide)
      (by decide) (by decide)⟩

/-- Casting 0/1 data to boolean and back is the identity. -/
theorem boolData_astype_id : ∀ (l : List ℚ), (∀ x ∈ l, x = 0 ∨ x = 1) →
    (l.map (fun x => if x = 0 then 0 else 1)) = l := by
  intro l
  induction l with
  | nil => intro _; rfl
  | cons x xs ih =>
      intro h
      rcases h x (List.mem_cons_self x xs) with h0 | h1
      · simp [h0, ih (fun y hy => h y (List.mem_cons_of_mem x hy))]
      · simp [h1, ih (fun y hy => h y (List.mem_cons_of_mem x hy))]

/-- A boolean mask map written to disk and read back with `astype(bool)` is
restored exactly. -/
theorem mask_map_roundtrip (nm : String) (m : MapM)
    (hd : m.dtype = DType.boolType) (hdata : ∀ x ∈ m.data, x = 0 ∨ x = 1) :
    (mapFromHdu (mapToHdu nm m)).astypeBool = m := by
  cases m with
  | mk data unit geomId dtype =>
      simp only [mapToHdu, mapFromHdu, MapM.astypeBool] at *
      subst hd
      simp [boolData_astype_id data hdata]

/-- A non-boolean map written to disk and read back is restored exactly. -/
theorem map_roundtrip (nm : String) (m : MapM) (hd : m.dtype ≠ DType.boolType) :
    mapFromHdu (mapToHdu nm m) = m := by
  cases m with
  | mk data unit geomId dtype =>
      simp only [mapToHdu, mapFromHdu]
      rw [if_neg hd]

/-- A boolean mask map written to disk and read back *without* the cast keeps
the on-disk integer dtype but the same data, unit and geometry. -/
theorem mask_map_roundtrip_nocast (nm : String) (m : MapM)
    (hd : m.dtype = DType.boolType) :
    mapFromHdu (mapToHdu nm m) = { m with dtype := DType.intType } := by
  cases m with
  | mk data unit geomId dtype =>
      simp only [mapToHdu, mapFromHdu] at *
      subst hd
      simp

/-- Locating each role HDU in a serialized `MapDataset`. -/
theorem serFind_all (d : MapDatasetSer) :
    hduFind d.toHdulist "COUNTS" = d.counts.map (mapToHdu "COUNTS") ∧
    hduFind d.toHdulist "EXPOSURE" = d.exposure.map (mapToHdu "EXPOSURE") ∧
    hduFind d.toHdulist "BACKGROUND" = d.background.map (mapToHdu "BACKGROUND") ∧
    hduFind d.toHdulist "MASK_SAFE" = d.mask_safe.map (mapToHdu "MASK_SAFE") ∧
    hduFind d.toHdulist "MASK_FIT" = d.mask_fit.map (mapToHdu "MASK_FIT") ∧
    hduFind d.toHdulist "COUNTS_OFF" = none ∧
    hduFind d.toHdulist "ACCEPTANCE" = none ∧
    hduFind d.toHdulist "ACCEPTANCE_OFF" = none := by
  rcases d with ⟨c, e, b, ms, mf⟩
  rcases c <;> rcases e <;> rcases b <;> rcases ms <;> rcases mf <;>
    simp [MapDatasetSer.toHdulist, hduFind, mapToHdu, List.find?]

set_option maxHeartbeats 3000000 in
/-- Locating each role HDU in a serialized `MapDatasetOnOff`. -/
theorem onoffFind_all (d : MapDatasetOnOffSer) :
    hduFind d.toHdulist "COUNTS" = d.counts.map (mapToHdu "COUNTS") ∧
    hduFind d.toHdulist "COUNTS_OFF" = d.counts_off.map (mapToHdu "COUNTS_OFF") ∧
    hduFind d.toHdulist "ACCEPTANCE" = d.acceptance.map (mapToHdu "ACCEPTANCE") ∧
    hduFind d.toHdulist "ACCEPTANCE_OFF" =
      d.acceptance_off.map (mapToHdu "ACCEPTANCE_OFF") ∧
    hduFind d.toHdulist "EXPOSURE" = d.exposure.map (mapToHdu "EXPOSURE") ∧
    hduFind d.toHdulist "BACKGROUND" = none ∧
    hduFind d.toHdulist "MASK_SAFE" = d.mask_safe.map (mapToHdu "MASK_SAFE") ∧
    hduFind d.toHdulist "MASK_FIT" = d.mask_fit.map (mapToHdu "MASK_FIT") := by
  rcases d with ⟨c, co, a, ao, e, ms, mf⟩
  rcases c <;> rcases co <;> rcases a <;> rcases ao <;> rcases e <;> rcases ms <;>
    rcases mf <;>
    simp [MapDatasetOnOffSer.toHdulist, MapDatasetSer.toHdulist, hduFind,
      mapToHdu, List.find?]

/-- C7 (amended): `write()` then `read()` reproduces every populated
role-map's data, unit and geometry for both dataset variants; the round-trip
masks have boolean dtype for `MapDataset`, while for `MapDatasetOnOff` —
whose `from_hdulist` omits the `astype(bool)` cast — they keep the on-disk
integer dtype (with data, unit and geometry still reproduced). -/
theorem dataset_write_read_roundtrip (d : MapDatasetSer) (onoff : MapDatasetOnOffSer)
    (hc : ∀ m, d.counts = some m → m.dtype ≠ DType.boolType)
    (he : ∀ m, d.exposure = some m → m.dtype ≠ DType.boolType)
    (hb : ∀ m, d.background = some m → m.dtype ≠ DType.boolType)
    (hms : ∀ m, d.mask_safe = some m → m.dtype = DType.boolType ∧
      ∀ x ∈ m.data, x = 0 ∨ x = 1)
    (hmf : ∀ m, d.mask_fit = some m → m.dtype = DType.boolType ∧
      ∀ x ∈ m.data, x = 0 ∨ x = 1)
    (oc : ∀ m, onoff.counts = some m → m.dtype ≠ DType.boolType)
    (oco : ∀ m, onoff.counts_off = some m → m.dtype ≠ DType.boolType)
    (oa : ∀ m, onoff.acceptance = some m → m.dtype ≠ DType.boolType)
    (oao : ∀ m, onoff.acceptance_off = some m → m.dtype ≠ DType.boolType)
    (oe : ∀ m, onoff.exposure = some m → m.dtype ≠ DType.boolType)
    (oms : ∀ m, onoff.mask_safe = some m → m.dtype = DType.boolType)
    (omf : ∀ m, onoff.mask_fit = some m → m.dtype = DType.boolType) :
    MapDatasetSer.fromHdulist d.toHdulist = d ∧
    (MapDatasetOnOffSer.fromHdulist onoff.toHdulist).counts = onoff.counts ∧
    (MapDatasetOnOffSer.fromHdulist onoff.toHdulist).counts_off = onoff.counts_off ∧
    (MapDatasetOnOffSer.fromHdulist onoff.toHdulist).acceptance = onoff.acceptance ∧
    (MapDatasetOnOffSer.fromHdulist onoff.toHdulist).acceptance_off =
      onoff.acceptance_off ∧
    (MapDatasetOnOffSer.fromHdulist onoff.toHdulist).exposure = onoff.exposure ∧
    (∀ m, onoff.mask_safe = some m →
      (MapDatasetOnOffSer.fromHdulist onoff.toHdulist).mask_safe =
        some { m with dtype := DType.intType }) ∧
    (∀ m, onoff.mask_fit = some m →
      (MapDatasetOnOffSer.fromHdulist onoff.toHdulist).mask_fit =
        some { m with dtype := DType.intType }) := by
  obtain ⟨f1, f2, f3, f4, f5, _, _, _⟩ := serFind_all d
  obtain ⟨g1, g2, g3, g4, g5, g6, g7, g8⟩ := onoffFind_all onoff
  refine ⟨?_, ?_, ?_, ?_, ?_, ?_, ?_, ?_⟩
  · rcases d with ⟨c, e, b, ms, mf⟩
    simp only [MapDatasetSer.fromHdulist, f1, f2, f3, f4, f5] at *
    simp only [MapDatasetSer.mk.injEq]
    refine ⟨?_, ?_, ?_, ?_, ?_⟩
    · rcases c with _ | cm
      · rfl
      · simpa using map_roundtrip "COUNTS" cm (hc cm rfl)
    · rcases e with _ | em
      · rfl
      · simpa using map_roundtrip "EXPOSURE" em (he em rfl)
    · rcases b with _ | bm
      · rfl
      · simpa using map_roundtrip "BACKGROUND" bm (hb bm rfl)
    · rcases ms with _ | mm
      · rfl
      · simpa using mask_map_roundtrip "MASK_SAFE" mm (hms mm rfl).1 (hms mm rfl).2
    · rcases mf with _ | mm
      · rfl
      · simpa using mask_map_roundtrip "MASK_FIT" mm (hmf mm rfl).1 (hmf mm rfl).2
  · simp only [MapDatasetOnOffSer.fromHdulist, g1]
    rcases hx : onoff.counts with _ | m
    · rfl
    · simpa using map_roundtrip "COUNTS" m (oc m hx)
  · simp only [MapDatasetOnOffSer.fromHdulist, g2]
    rcases hx : onoff.counts_off with _ | m
    · rfl
    · simpa using map_roundtrip "COUNTS_OFF" m (oco m hx)
  · simp only [MapDatasetOnOffSer.fromHdulist, g3]
    rcases hx : onoff.acceptance with _ | m
    · rfl
    · simpa using map_roundtrip "ACCEPTANCE" m (oa m hx)
  · simp only [MapDatasetOnOffSer.fromHdulist, g4]
    rcases hx : onoff.acceptance_off with _ | m
    · rfl
    · simpa using map_roundtrip "ACCEPTANCE_OFF" m (oao m hx)
  · simp only [MapDatasetOnOffSer.fromHdulist, g5]
    rcases hx : onoff.exposure with _ | m
    · rfl
    · simpa using map_roundtrip "EXPOSURE" m (oe m hx)
  · intro m hx
    simp only [MapDatasetOnOffSer.fromHdulist, g7, hx]
    simpa using mask_map_roundtrip_nocast "MASK_SAFE" m (oms m hx)
  · intro m hx
    simp only [MapDatasetOnOffSer.fromHdulist, g8, hx]
    simpa using mask_map_roundtrip_nocast "MASK_FIT" m (omf m hx)

/-- A concrete serialized on/off dataset with a boolean safe mask. -/
def onOffSerSample : MapDatasetOnOffSer :=
  { counts := some { data := [5, 6], unit := "", geomId := 1, dtype := DType.floatType }
    counts_off := some { data := [1, 2], unit := "", geomId := 1, dtype := DType.floatType }
    acceptance := some { data := [1, 1], unit := "", geomId := 1, dtype := DType.floatType }
    acceptance_off := some { data := [2, 2], unit := "", geomId := 1, dtype := DType.floatType }
    exposure := none
    mask_safe := some { data := [1, 0], unit := "", geomId := 1, dtype := DType.boolType }
    mask_fit := none }

/-- C7 counterexample: for a `MapDatasetOnOff`, the written-then-read safe
mask comes back with the on-disk integer dtype, not boolean — the boolean
round-trip guarantee does not hold for every dataset variant. -/
theorem onoff_roundtrip_mask_not_bool :
    (MapDatasetOnOffSer.fromHdulist onOffSerSample.toHdulist).mask_safe =
      some { data := [1, 0], unit := "", geomId := 1, dtype := DType.intType } ∧
    DType.intType ≠ DType.boolType :=
  ⟨rfl, by decide⟩

/-- A concrete serialized `MapDataset` with a counts map and a boolean safe
mask. -/
def mapSerSample : MapDatasetSer :=
  { counts := some { data := [5, 6], unit := "", geomId := 1, dtype := DType.floatType }
    exposure := none
    background := none
    mask_safe := some { data := [0, 1], unit := "", geomId := 1, dtype := DType.boolType }
    mask_fit := none }

/-- Witness for the amended C7 at the concrete pair. -/
theorem dataset_write_read_roundtrip_witness :
    mapSerSample.counts =
      some { data := [5, 6], unit := "", geomId := 1, dtype := DType.floatType } ∧
    onOffSerSample.mask_safe =
      some { data := [1, 0], unit := "", geomId := 1, dtype := DType.boolType } ∧
    (MapDatasetSer.fromHdulist mapSerSample.toHdulist = mapSerSample ∧
      (MapDatasetOnOffSer.fromHdulist onOffSerSample.toHdulist).counts =
        onOffSerSample.counts ∧
      (MapDatasetOnOffSer.fromHdulist onOffSerSample.toHdulist).counts_off =
        onOffSerSample.counts_off ∧
      (MapDatasetOnOffSer.fromHdulist onOffSerSample.toHdulist).acceptance =
        onOffSerSample.acceptance ∧
      (MapDatasetOnOffSer.fromHdulist onOffSerSample.toHdulist).acceptance_off =
        onOffSerSample.acceptance_off ∧
      (MapDatasetOnOffSer.fromHdulist onOffSerSample.toHdulist).exposure =
        onOffSerSample.exposure ∧
      (∀ m, onOffSerSample.mask_safe = some m →
        (MapDatasetOnOffSer.fromHdulist onOffSerSample.toHdulist).mask_safe =
          some { m with dtype := DType.intType }) ∧
      (∀ m, onOffSerSample.mask_fit = some m →
        (MapDatasetOnOffSer.fromHdulist onOffSerSample.toHdulist).mask_fit =
          some { m with dtype := DType.intType })) :=
  ⟨rfl, rfl,
    dataset_write_read_roundtrip mapSerSample onOffSerSample
      (by intro m hm; cases hm; decide)
      (by intro m hm; cases hm)
      (by intro m hm; cases hm)
      (by intro m hm; cases hm; refine ⟨rfl, ?_⟩; intro x hx
          simp at hx
          exact hx)
      (by intro m hm; cases hm)
      (by intro m hm; cases hm; decide)
      (by intro m hm; cases hm; decide)
      (by intro m hm; cases hm; decide)
      (by intro m hm; cases hm; decide)
      (by intro m hm; cases hm)
      (by intro m hm; cases hm; rfl)
      (by intro m hm; cases hm)⟩

/-- C8: the position angle drawn by `PSFMap.sample_coord` is not uniform over
[0°, 360°).  `random_state.uniform(360, size=...)` passes 360 as numpy's
`low` with the default `high = 1.0`, so the drawn angles lie in (1°, 360°]:
at the underlying uniform draw `u = 0` the angle is exactly 360°, outside the
claimed interval, and no draw can produce an angle below 1°. -/
theorem sample_coord_position_angle_bug :
    sampleCoordPositionAngle 0 = 360 ∧
    ¬ (0 ≤ sampleCoordPositionAngle 0 ∧ sampleCoordPositionAngle 0 < 360) ∧
    (sampleCoordEvent [1, 1] [1, 2] [1, 1] 0 0).2 = 360 ∧
    sampleCoordPositionAngle (1 / 2) = 361 / 2 := by
  refine ⟨?_, ?_, ?_, ?_⟩
  · norm_num [sampleCoordPositionAngle, numpyUniform]
  · norm_num [sampleCoordPositionAngle, numpyUniform]
  · norm_num [sampleCoordEvent, sampleCoordPositionAngle, numpyUniform]
  · norm_num [sampleCoordPositionAngle, numpyUniform]

/-- C9 counterexample: a caller-given `max_radius` is used as is — with a rad
axis whose largest center is 1 and a 4°-wide geometry, passing
`max_radius = 100` keeps 100 instead of the clamp value 1. -/
theorem get_psf_kernel_no_clamp_counterexample :
    getPsfKernelMaxRadius [1] 4 4 (some 100) = 100 ∧
    min (listMax [1]) (min (4 : ℚ) 4 / 2) = 1 ∧
    (100 : ℚ) ≠ 1 := by
  refine ⟨rfl, ?_, by norm_num⟩
  norm_num [listMax]

/-- C9 (amended): only when the caller passes no `max_radius` is the radius
clamped — it is then at most the largest tabulated rad center, at most half
the smaller geometry width, and equal to one of the two; an explicit
`max_radius` is used unchanged.  The kernel geometry is forced to an odd
pixel count in every call. -/
theorem get_psf_kernel_clamp_and_odd (radCenters : List ℚ) (wx wy binsz : ℚ)
    (mr : Option ℚ) :
    (getPsfKernelMaxRadius radCenters wx wy none ≤ listMax radCenters ∧
      getPsfKernelMaxRadius radCenters wx wy none ≤ min wx wy / 2 ∧
      (getPsfKernelMaxRadius radCenters wx wy none = listMax radCenters ∨
        getPsfKernelMaxRadius radCenters wx wy none = min wx wy / 2)) ∧
    (∀ r : ℚ, getPsfKernelMaxRadius radCenters wx wy (some r) = r) ∧
    Odd (getPsfKernelNpix radCenters wx wy binsz mr) := by
  refine ⟨⟨min_le_left _ _, min_le_right _ _, min_choice _ _⟩, fun r => rfl, ?_⟩
  exact ⟨(⌊getPsfKernelMaxRadius radCenters wx wy mr / binsz⌋).toNat, rfl⟩
